import Mathlib

/-!
Verification development for a heap allocator with two variants:
an implicit free-block allocator (src/implicit.c) and an explicit
free-list allocator (src/explicit.c).

The segment is modelled as a word-addressed memory `Mem : Nat → Nat`
(the value of the 8-byte little-endian machine word starting at the
given byte offset; the allocator only ever reads and writes memory at
8-byte-aligned addresses: block headers and the prev/next link words
of the explicit free list).  Addresses are natural numbers; the null
pointer is the address 0, so concrete runs place the segment at a
nonzero base.  size_t arithmetic is modelled on Nat; the roundup
helper, whose behaviour under wraparound is part of the claims, uses
explicit arithmetic modulo 2^64.  Loops of the C code that walk the
segment or the free list are modelled with an explicit fuel argument;
a fuel of `segment_size` is always sufficient for well-formed heaps,
since every block consumes at least HEADER_SIZE = 8 bytes.
-/

/-- Word width modulus of the 64-bit machine: 2^64. -/
def W : Nat := 2 ^ 64

/-- size_t addition modulo 2^64. -/
def wadd (a b : Nat) : Nat := (a + b) % W

/-- size_t subtraction modulo 2^64. -/
def wsub (a b : Nat) : Nat := (a + (W - b % W)) % W

/-- size_t bitwise complement: ~x on a 64-bit word. -/
def wnot (x : Nat) : Nat := (W - 1) - x % W

/-- HEADER_SIZE constant shared by both variants (8 bytes). -/
def HEADER_SIZE : Nat := 8

/-- MALLOC bit constant: bit 0 of a header word marks an allocated block. -/
def MALLOC : Nat := 1

/-- SIZE_BITMASK is the C expression ~7 converted to size_t: 2^64 - 8. -/
def SIZE_BITMASK : Nat := W - 8

/-- Modelled from the spec: the constant ALIGNMENT comes from the external
interface header (allocator.h), which is not among the sources; the spec
fixes it to a power of two, typically 8, and all concrete scenarios in the
spec use 8. -/
def ALIGNMENT : Nat := 8

/-- Modelled from the spec: MAX_REQUEST_SIZE is an externally defined upper
bound on a single request, from the missing interface header (allocator.h).
The claims do not depend on its exact value; we fix the customary 2^30. -/
def MAX_REQUEST_SIZE : Nat := 2 ^ 30

/-- Word-addressed memory: the 64-bit word starting at a given byte offset. -/
def Mem : Type := Nat → Nat

/-- Write one word of memory at address a. -/
def wr (m : Mem) (a v : Nat) : Mem := fun x => if x = a then v else m x

/-- Copy k whole words from src to dst (memcpy on disjoint regions). -/
def copyWords (m : Mem) (dst src : Nat) : Nat → Mem
  | 0 => m
  | k + 1 => wr (copyWords m dst src k) (dst + 8 * k) (m (src + 8 * k))

/-- memcpy of n bytes between 8-byte-aligned, disjoint regions: whole words
are copied, and a trailing partial word takes its low n % 8 bytes
(little-endian) from the source and keeps the destination's high bytes. -/
def memcpy (m : Mem) (dst src n : Nat) : Mem :=
  let q := n / 8
  let r := n % 8
  let m1 := copyWords m dst src q
  if r = 0 then m1
  else wr m1 (dst + 8 * q)
    (m (src + 8 * q) % 2 ^ (8 * r) + (m (dst + 8 * q) / 2 ^ (8 * r)) * 2 ^ (8 * r))

namespace Implicit

/-- Process-wide allocator state of src/implicit.c: the segment memory plus
the file-static globals. -/
structure State where
  mem : Mem
  segment_start : Nat
  segment_end : Nat
  segment_size : Nat
  nused : Nat
  num_freeblocks : Int
  num_usedblocks : Int

/-- myinit of src/implicit.c, acting on an arbitrary initial memory.
Returns none exactly when the C function returns false. -/
def myinit (m : Mem) (heap_start heap_size : Nat) : Option State :=
  if heap_size < HEADER_SIZE + ALIGNMENT then none
  else some
    { mem := wr m heap_start (heap_size - HEADER_SIZE)
      segment_start := heap_start
      segment_end := heap_start + heap_size
      segment_size := heap_size
      nused := 0
      num_freeblocks := 1
      num_usedblocks := 0 }

/-- roundup of src/implicit.c: (size + multiple - 1) & ~(multiple - 1),
with size_t arithmetic modulo 2^64. -/
def roundup (size multiple : Nat) : Nat :=
  wsub (wadd size multiple) 1 &&& wnot (wsub multiple 1)

/-- get_header of src/implicit.c: the header address of a payload pointer. -/
def get_header (ptr : Nat) : Nat := ptr - HEADER_SIZE

/-- get_size of src/implicit.c: payload & SIZE_BITMASK, read at a header. -/
def get_size (m : Mem) (a : Nat) : Nat := m a &&& SIZE_BITMASK

/-- is_malloc of src/implicit.c: bit 0 of the header word. -/
def is_malloc (m : Mem) (a : Nat) : Bool := (m a &&& MALLOC) != 0

/-- split_block of src/implicit.c: when at least HEADER_SIZE + ALIGNMENT
bytes would remain, write the new trailing header at
old_block + size_needed + HEADER_SIZE and shrink the original header's
payload word to size_needed. -/
def split_block (σ : State) (old_block size_needed : Nat) : State :=
  if HEADER_SIZE + ALIGNMENT ≤ get_size σ.mem old_block - size_needed then
    { σ with
      mem := (wr (wr σ.mem (old_block + (size_needed + HEADER_SIZE))
        (get_size σ.mem old_block - (size_needed + HEADER_SIZE))) old_block size_needed)
      num_freeblocks := σ.num_freeblocks + 1 }
  else σ

/-- find_first_free of src/implicit.c, with explicit fuel for the segment
walk (the C loop advances at least HEADER_SIZE bytes per step). -/
def find_first_free (σ : State) : Nat → Nat → Nat → Option Nat
  | 0, _, _ => none
  | fuel + 1, ptr, size_needed =>
    if ptr < σ.segment_end then
      let size := get_size σ.mem ptr
      if size_needed ≤ size ∧ is_malloc σ.mem ptr = false then some ptr
      else find_first_free σ fuel (ptr + size + HEADER_SIZE) size_needed
    else none

/-- The list of block header addresses visited by the segment walk that
starts at ptr, with explicit fuel; the traversal order of the implicit
placement policy. -/
def blockWalk (σ : State) : Nat → Nat → List Nat
  | 0, _ => []
  | fuel + 1, ptr =>
    if ptr < σ.segment_end then
      ptr :: blockWalk σ fuel (ptr + get_size σ.mem ptr + HEADER_SIZE)
    else []

/-- The statement ptr->payload += MALLOC of both mymalloc functions. -/
def markAlloc (σ : State) (ptr : Nat) : State :=
  { σ with mem := wr σ.mem ptr (σ.mem ptr + MALLOC) }

/-- The counter updates at the end of mymalloc of src/implicit.c, reading
the block's size after the allocation bit has been set. -/
def bumpCounters (σ : State) (ptr : Nat) : State :=
  { σ with
    nused := σ.nused + (get_size σ.mem ptr + HEADER_SIZE)
    num_usedblocks := σ.num_usedblocks + 1
    num_freeblocks := σ.num_freeblocks - 1 }

/-- The tail of mymalloc of src/implicit.c once a block has been found:
split it, set its allocation bit, and update the counters. -/
def allocAt (σ : State) (ptr size_needed : Nat) : State :=
  bumpCounters (markAlloc (split_block σ ptr size_needed) ptr) ptr

/-- mymalloc of src/implicit.c (the C local size_needed, a pure value, is
written out in each of its uses).  Returns the possibly-updated state and
the payload address (none for the C NULL return). -/
def mymalloc (σ : State) (requested_size : Nat) : State × Option Nat :=
  if MAX_REQUEST_SIZE < requested_size ∨ requested_size = 0 then (σ, none)
  else if σ.segment_size < roundup requested_size ALIGNMENT + σ.nused then (σ, none)
  else
    match find_first_free σ σ.segment_size σ.segment_start
        (roundup requested_size ALIGNMENT) with
    | none => (σ, none)
    | some ptr =>
      (allocAt σ ptr (roundup requested_size ALIGNMENT), some (ptr + HEADER_SIZE))

/-- myfree of src/implicit.c. -/
def myfree (σ : State) (ptr : Nat) : State :=
  if ptr = 0 then σ
  else
    let hp := get_header ptr
    let σ₁ := { σ with mem := wr σ.mem hp (σ.mem hp - MALLOC) }
    { σ₁ with
      num_usedblocks := σ₁.num_usedblocks - 1
      num_freeblocks := σ₁.num_freeblocks + 1
      nused := σ₁.nused - (get_size σ₁.mem hp + HEADER_SIZE) }

/-- myrealloc of src/implicit.c: always out of place, copying
min(new_size, old payload size) bytes. -/
def myrealloc (σ : State) (old_ptr new_size : Nat) : State × Option Nat :=
  if old_ptr = 0 then mymalloc σ new_size
  else if new_size = 0 then (myfree σ old_ptr, none)
  else
    match mymalloc σ new_size with
    | (σ₁, none) => (σ₁, none)
    | (σ₁, some new_ptr) =>
      (myfree
        { σ₁ with mem := (memcpy σ₁.mem new_ptr old_ptr
            (if new_size < get_size σ₁.mem (get_header old_ptr) then new_size
             else get_size σ₁.mem (get_header old_ptr))) }
        old_ptr,
       some new_ptr)

end Implicit

namespace Explicit

/-- Process-wide allocator state of src/explicit.c: the segment memory plus
the file-static globals, including the free-list head.  A free block's prev
link lives in the word at offset 8 from its header and its next link in the
word at offset 16; the null pointer is 0. -/
structure State where
  mem : Mem
  segment_start : Nat
  segment_end : Nat
  segment_size : Nat
  nused : Nat
  num_freeblocks : Int
  num_usedblocks : Int
  first_free : Nat

/-- myinit of src/explicit.c: writes the single free header and its null
prev/next links, in the order of the C statements. -/
def myinit (m : Mem) (heap_start heap_size : Nat) : Option State :=
  if heap_size < HEADER_SIZE + ALIGNMENT * 2 then none
  else some
    { mem := wr (wr (wr m heap_start (heap_size - HEADER_SIZE))
                    (heap_start + 8) 0)
                (heap_start + 16) 0
      segment_start := heap_start
      segment_end := heap_start + heap_size
      segment_size := heap_size
      nused := 0
      num_freeblocks := 1
      num_usedblocks := 0
      first_free := heap_start }

/-- roundup of src/explicit.c (textually identical to the implicit one). -/
def roundup (size multiple : Nat) : Nat :=
  wsub (wadd size multiple) 1 &&& wnot (wsub multiple 1)

/-- get_header of src/explicit.c. -/
def get_header (ptr : Nat) : Nat := ptr - HEADER_SIZE

/-- get_size of src/explicit.c. -/
def get_size (m : Mem) (a : Nat) : Nat := m a &&& SIZE_BITMASK

/-- is_malloc of src/explicit.c. -/
def is_malloc (m : Mem) (a : Nat) : Bool := (m a &&& MALLOC) != 0

/-- add_freeblock of src/explicit.c.  Note that the empty-list branch only
assigns first_free and does not touch the inserted block's prev/next words. -/
def add_freeblock (σ : State) (block : Nat) : State :=
  if σ.first_free = 0 then { σ with first_free := block }
  else
    { σ with
      mem := wr (wr (wr σ.mem (σ.first_free + 8) block) (block + 8) 0)
                (block + 16) σ.first_free
      first_free := block }

/-- First statement of remove_freeblock of src/explicit.c: advance
first_free past the block when it is the head. -/
def unlinkHead (σ : State) (block : Nat) : State :=
  if block = σ.first_free then { σ with first_free := σ.mem (block + 16) } else σ

/-- Second statement of remove_freeblock: if the block's prev link is not
null, set that neighbour's next word to the block's next link. -/
def unlinkPrev (σ : State) (block : Nat) : State :=
  if σ.mem (block + 8) ≠ 0 then
    { σ with mem := wr σ.mem (σ.mem (block + 8) + 16) (σ.mem (block + 16)) }
  else σ

/-- Third statement of remove_freeblock: if the block's next link is not
null, set that neighbour's prev word to the block's prev link. -/
def unlinkNext (σ : State) (block : Nat) : State :=
  if σ.mem (block + 16) ≠ 0 then
    { σ with mem := wr σ.mem (σ.mem (block + 16) + 8) (σ.mem (block + 8)) }
  else σ

/-- remove_freeblock of src/explicit.c; each C statement re-reads the link
words from the current memory, in order. -/
def remove_freeblock (σ : State) (block : Nat) : State :=
  unlinkNext (unlinkPrev (unlinkHead σ block) block) block

/-- The header-writing statements of split_block of src/explicit.c: write
the new trailing header (its word is the old payload size minus
size_needed + HEADER_SIZE), then rewrite the original header to
size_needed, preserving its allocation bit (which is read back from memory
after the first write, exactly as the C does). -/
def splitHeaders (σ : State) (old_block size_needed : Nat) : State :=
  if is_malloc (wr σ.mem (old_block + (size_needed + HEADER_SIZE))
      (get_size σ.mem old_block - (size_needed + HEADER_SIZE))) old_block then
    { σ with mem := (wr (wr σ.mem (old_block + (size_needed + HEADER_SIZE))
        (get_size σ.mem old_block - (size_needed + HEADER_SIZE)))
        old_block (size_needed + MALLOC)) }
  else
    { σ with mem := (wr (wr σ.mem (old_block + (size_needed + HEADER_SIZE))
        (get_size σ.mem old_block - (size_needed + HEADER_SIZE)))
        old_block size_needed) }

/-- split_block of src/explicit.c: carve a trailing free block when at least
2*ALIGNMENT + HEADER_SIZE bytes remain, preserve the allocation status of
the original block, and push the new free block on the free list. -/
def split_block (σ : State) (old_block size_needed : Nat) : State :=
  if 2 * ALIGNMENT + HEADER_SIZE ≤ get_size σ.mem old_block - size_needed then
    { (add_freeblock (splitHeaders σ old_block size_needed)
        (old_block + (size_needed + HEADER_SIZE))) with
      num_freeblocks := ((add_freeblock (splitHeaders σ old_block size_needed)
        (old_block + (size_needed + HEADER_SIZE))).num_freeblocks + 1) }
  else σ

/-- coalesce_block of src/explicit.c: absorb the immediate right neighbour
when it is free, but return early when the argument's prev and next words
are both null (the code's "no other free blocks" test). -/
def coalesce_block (σ : State) (block : Nat) : State :=
  if σ.mem (block + 8) = 0 ∧ σ.mem (block + 16) = 0 then σ
  else
    let next := block + get_size σ.mem block + HEADER_SIZE
    if σ.segment_end ≤ next then σ
    else if is_malloc σ.mem next = false then
      let σ₁ := remove_freeblock σ next
      let σ₂ := { σ₁ with
        mem := wr σ₁.mem block (σ₁.mem block + (get_size σ₁.mem next + HEADER_SIZE)) }
      { σ₂ with num_freeblocks := σ₂.num_freeblocks - 1 }
    else σ

/-- find_freeblock of src/explicit.c: first fit along the next links, with
explicit fuel bounding the length of the chain that is followed. -/
def find_freeblock (σ : State) : Nat → Nat → Nat → Option Nat
  | 0, _, _ => none
  | fuel + 1, ptr, size_needed =>
    if ptr ≠ 0 then
      if size_needed ≤ get_size σ.mem ptr then some ptr
      else find_freeblock σ fuel (σ.mem (ptr + 16)) size_needed
    else none

/-- The list of nodes visited by following next links from ptr, with
explicit fuel; the traversal order of the explicit placement policy. -/
def chainWalk (σ : State) : Nat → Nat → List Nat
  | 0, _ => []
  | fuel + 1, ptr =>
    if ptr ≠ 0 then ptr :: chainWalk σ fuel (σ.mem (ptr + 16)) else []

/-- The normalized request size of src/explicit.c's mymalloc and myrealloc:
at least 2*ALIGNMENT, else the request rounded up to ALIGNMENT. -/
def normE (requested_size : Nat) : Nat :=
  if 2 * ALIGNMENT < requested_size then roundup requested_size ALIGNMENT
  else 2 * ALIGNMENT

/-- The statement ptr->payload += MALLOC of mymalloc of src/explicit.c. -/
def markAlloc (σ : State) (ptr : Nat) : State :=
  { σ with mem := wr σ.mem ptr (σ.mem ptr + MALLOC) }

/-- The counter updates at the end of mymalloc of src/explicit.c, reading
the block's size after the allocation bit has been set. -/
def bumpCounters (σ : State) (ptr : Nat) : State :=
  { σ with
    nused := σ.nused + (get_size σ.mem ptr + HEADER_SIZE)
    num_usedblocks := σ.num_usedblocks + 1
    num_freeblocks := σ.num_freeblocks - 1 }

/-- The tail of mymalloc of src/explicit.c once a node has been found:
split it, unlink it from the free list, set its allocation bit, and update
the counters. -/
def allocAt (σ : State) (ptr size_needed : Nat) : State :=
  bumpCounters (markAlloc (remove_freeblock (split_block σ ptr size_needed) ptr) ptr) ptr

/-- mymalloc of src/explicit.c (the C local size_needed is the pure value
normE requested_size, written out in each of its uses). -/
def mymalloc (σ : State) (requested_size : Nat) : State × Option Nat :=
  if MAX_REQUEST_SIZE < requested_size ∨ requested_size = 0 then (σ, none)
  else if σ.segment_size < normE requested_size + σ.nused then (σ, none)
  else
    match find_freeblock σ σ.segment_size σ.first_free (normE requested_size) with
    | none => (σ, none)
    | some ptr => (allocAt σ ptr (normE requested_size), some (ptr + HEADER_SIZE))

/-- myfree of src/explicit.c: clear the bit, adjust counters, push on the
free list, and right-coalesce once. -/
def myfree (σ : State) (ptr : Nat) : State :=
  if ptr = 0 then σ
  else
    let hp := get_header ptr
    let σ₁ := { σ with mem := wr σ.mem hp (σ.mem hp - MALLOC) }
    let σ₂ := { σ₁ with
      nused := σ₁.nused - (get_size σ₁.mem hp + HEADER_SIZE)
      num_usedblocks := σ₁.num_usedblocks - 1
      num_freeblocks := σ₁.num_freeblocks + 1 }
    coalesce_block (add_freeblock σ₂ hp) hp

/-- The in-place coalescing loop of src/explicit.c's myrealloc: repeatedly
coalesce the block until its payload size stops changing, with fuel (the C
loop variable temp always equals the block's header).  Returns the state
and the final payload size. -/
def coalesceLoop (σ : State) (block : Nat) : Nat → Nat → State × Nat
  | 0, temp_size => (σ, temp_size)
  | fuel + 1, temp_size =>
    let σ₁ := coalesce_block σ block
    if get_size σ₁.mem block ≠ temp_size then
      coalesceLoop σ₁ block fuel (get_size σ₁.mem block)
    else (σ₁, temp_size)

/-- The shrink branch of myrealloc of src/explicit.c: split the block to
the target and subtract the decrease of its payload size from nused. -/
def shrinkAt (σ : State) (oldheader newsize_needed : Nat) : State :=
  { (split_block σ oldheader newsize_needed) with
    nused := ((split_block σ oldheader newsize_needed).nused -
      (get_size σ.mem oldheader -
       get_size (split_block σ oldheader newsize_needed).mem oldheader)) }

/-- The in-place grow tail of myrealloc of src/explicit.c after the
coalescing loop provided enough space: split back to the target and add
the net payload-size change of the block to nused (old_size is the
payload size the block had before the coalescing loop). -/
def growAt (σ₁ : State) (oldheader newsize_needed old_size : Nat) : State :=
  { (split_block σ₁ oldheader newsize_needed) with
    nused := ((split_block σ₁ oldheader newsize_needed).nused +
      (get_size (split_block σ₁ oldheader newsize_needed).mem oldheader - old_size)) }

/-- myrealloc of src/explicit.c: shrink and exact cases in place, grow by
right-coalescing in place when possible, otherwise out of place (the C
locals oldheader, old_size and newsize_needed are pure values, written out
at each use). -/
def myrealloc (σ : State) (old_ptr new_size : Nat) : State × Option Nat :=
  if old_ptr = 0 then mymalloc σ new_size
  else if new_size = 0 then (myfree σ old_ptr, none)
  else if normE new_size < get_size σ.mem (get_header old_ptr) then
    (shrinkAt σ (get_header old_ptr) (normE new_size), some old_ptr)
  else if get_size σ.mem (get_header old_ptr) = normE new_size then (σ, some old_ptr)
  else if normE new_size ≤ (coalesceLoop σ (get_header old_ptr) σ.segment_size
      (get_size σ.mem (get_header old_ptr))).2 then
    (growAt (coalesceLoop σ (get_header old_ptr) σ.segment_size
        (get_size σ.mem (get_header old_ptr))).1
      (get_header old_ptr) (normE new_size) (get_size σ.mem (get_header old_ptr)),
     some old_ptr)
  else
    match mymalloc (coalesceLoop σ (get_header old_ptr) σ.segment_size
        (get_size σ.mem (get_header old_ptr))).1 new_size with
    | (σ₂, none) => (σ₂, none)
    | (σ₂, some new_ptr) =>
      (myfree
        { σ₂ with mem := (memcpy σ₂.mem new_ptr old_ptr
            (get_size σ.mem (get_header old_ptr))) }
        old_ptr,
       some new_ptr)

/-- The segment-walk phase of validate_heap of src/explicit.c, with fuel:
returns the free and used block counts, or none when a check inside the
loop fails (nused too large or a block below the minimum size). -/
def validateWalk (σ : State) : Nat → Nat → Int → Int → Option (Int × Int)
  | 0, _, _, _ => none
  | fuel + 1, block, free_blocks, used_blocks =>
    if block < σ.segment_end then
      if σ.segment_size < σ.nused then none
      else if get_size σ.mem block < 2 * ALIGNMENT then none
      else if is_malloc σ.mem block then
        validateWalk σ fuel (block + get_size σ.mem block + HEADER_SIZE)
          free_blocks (used_blocks + 1)
      else
        validateWalk σ fuel (block + get_size σ.mem block + HEADER_SIZE)
          (free_blocks + 1) used_blocks
    else some (free_blocks, used_blocks)

/-- The free-list-walk phase of validate_heap of src/explicit.c, with fuel:
counts the nodes reachable from first_free, failing when a node is marked
allocated (and at fuel exhaustion, which models the C loop not
terminating). -/
def validateList (σ : State) : Nat → Nat → Int → Option Int
  | 0, _, _ => none
  | fuel + 1, temp, free_blocks =>
    if temp ≠ 0 then
      if is_malloc σ.mem temp then none
      else validateList σ fuel (σ.mem (temp + 16)) (free_blocks + 1)
    else some free_blocks

/-- validate_heap of src/explicit.c. -/
def validate_heap (σ : State) : Bool :=
  match validateWalk σ σ.segment_size σ.segment_start 0 0 with
  | none => false
  | some (free_blocks, used_blocks) =>
    if used_blocks ≠ σ.num_usedblocks then false
    else if free_blocks ≠ σ.num_freeblocks then false
    else
      match validateList σ σ.segment_size σ.first_free 0 with
      | none => false
      | some list_free =>
        if list_free ≠ σ.num_freeblocks then false else true

end Explicit

/-!
Concrete states used by the claim theorems and their witnesses, and
the free-list sanity predicate of the rounding theorem.  All concrete
runs place the segment at base address 8 on a zero-initialized memory.
-/

/-- A zero-initialized memory used for concrete runs. -/
def memZero : Mem := fun _ => 0

/-- Fallback explicit state for extracting from Option. -/
def dfltE : Explicit.State :=
  { mem := memZero, segment_start := 0, segment_end := 0, segment_size := 0,
    nused := 0, num_freeblocks := 0, num_usedblocks := 0, first_free := 0 }

/-- Fallback implicit state for extracting from Option. -/
def dfltI : Implicit.State :=
  { mem := memZero, segment_start := 0, segment_end := 0, segment_size := 0,
    nused := 0, num_freeblocks := 0, num_usedblocks := 0 }

/-- C1 run: a segment of 120 bytes at base 8 for the explicit allocator. -/
def c1s0 : Explicit.State := (Explicit.myinit memZero 8 120).getD dfltE

/-- C1 run: allocate three blocks filling the heap. -/
def c1a : Explicit.State × Option Nat := Explicit.mymalloc c1s0 16

/-- C1 run, step 2. -/
def c1b : Explicit.State × Option Nat := Explicit.mymalloc c1a.1 16

/-- C1 run, step 3. -/
def c1c : Explicit.State × Option Nat := Explicit.mymalloc c1b.1 56

/-- C1 run: free the first two blocks (valid frees of returned pointers). -/
def c1s1 : Explicit.State := Explicit.myfree (Explicit.myfree c1c.1 16) 40

/-- C1 run: re-allocate the two freed blocks. -/
def c1d : Explicit.State × Option Nat := Explicit.mymalloc c1s1 16

/-- C1 run, step 6. -/
def c1e : Explicit.State × Option Nat := Explicit.mymalloc c1d.1 16

/-- C1 run: free the block at payload address 40 again (returned by step 5). -/
def c1final : Explicit.State := Explicit.myfree c1e.1 40

/-- C9 run: a 64-byte implicit heap with one allocated block at header 8. -/
def c9s : Implicit.State :=
  (Implicit.mymalloc ((Implicit.myinit memZero 8 64).getD dfltI) 16).1

/-- Sanity of the free list for the rounding theorem: every node of the
chain is marked free, its links do not alias the node's own header, and
distinct nodes (here the head versus any node) are at least one minimum
block footprint apart. -/
def chainSane (σ : Explicit.State) : Prop :=
  ∀ g ∈ Explicit.chainWalk σ σ.segment_size σ.first_free,
    σ.mem g % 2 = 0 ∧
    (σ.mem (g + 8) = 0 ∨ σ.mem (g + 8) + 16 ≠ g) ∧
    (σ.mem (g + 16) = 0 ∨ σ.mem (g + 16) + 8 ≠ g) ∧
    (g = σ.first_free ∨ σ.first_free + 24 ≤ g ∨ g + 24 ≤ σ.first_free)

instance chainSaneDecidable (σ : Explicit.State) : Decidable (chainSane σ) := by
  unfold chainSane
  infer_instance

/-- C2 run: explicit heap of 72 bytes at base 8; after allocating blocks at
16 and 40, freeing 40 (which merges with the trailing free block), and
allocating at 40 again, the block at header 32 is allocated with payload
16 and its only free right neighbour is the 16-byte block at 56. -/
def c2pre : Explicit.State :=
  (Explicit.mymalloc
    (Explicit.myfree
      (Explicit.mymalloc
        (Explicit.mymalloc ((Explicit.myinit memZero 8 72).getD dfltE) 16).1 16).1
      40) 16).1

/-- C3 run: a 128-byte explicit heap at base 8.  Three 16-byte allocations
and one 48-byte allocation fill the heap; freeing and reallocating as
below leaves the heap as A(8, used) G(32, used) C(56, free) E(80, used)
F(104, used), where G was allocated from a single-node free list whose
head had null links, so G's stale prev/next words are both null. -/
def c3a : Explicit.State × Option Nat :=
  Explicit.mymalloc ((Explicit.myinit memZero 8 128).getD dfltE) 16

/-- C3 run, step 2. -/
def c3b : Explicit.State × Option Nat := Explicit.mymalloc c3a.1 16

/-- C3 run, step 3. -/
def c3c : Explicit.State × Option Nat := Explicit.mymalloc c3b.1 16

/-- C3 run, step 4. -/
def c3d : Explicit.State × Option Nat := Explicit.mymalloc c3c.1 48

/-- C3 run: free the second and fourth blocks. -/
def c3s1 : Explicit.State := Explicit.myfree (Explicit.myfree c3d.1 40) 88

/-- C3 run: three more allocations; the last one (returning 40) takes the
sole free-list node whose prev and next are null. -/
def c3e : Explicit.State × Option Nat := Explicit.mymalloc c3s1 16

/-- C3 run, step 7. -/
def c3f : Explicit.State × Option Nat := Explicit.mymalloc c3e.1 16

/-- C3 run, step 8: g's block is at header 32. -/
def c3g : Explicit.State × Option Nat := Explicit.mymalloc c3f.1 16

/-- C3 run: free the third allocation, making header 56 the free immediate
right neighbour of g's block. -/
def c3pre : Explicit.State := Explicit.myfree c3g.1 64

/-!
Arithmetic lemmas about the header codec (payload & SIZE_BITMASK, the
MALLOC bit) and about roundup's modulo-2^64 arithmetic.
-/

theorem and_two_pow_sub (x n k : Nat) (hk : k ≤ n) :
    x &&& (2 ^ n - 2 ^ k) = 2 ^ k * (x % 2 ^ n / 2 ^ k) := by
  apply Nat.eq_of_testBit_eq
  intro i
  have h1 : 2 ^ n - 2 ^ k = (2 ^ (n - k) - 1) <<< k := by
    rw [Nat.shiftLeft_eq, Nat.sub_mul, ← Nat.pow_add, Nat.one_mul, Nat.sub_add_cancel hk]
  have h2 : 2 ^ k * (x % 2 ^ n / 2 ^ k) = ((x % 2 ^ n) >>> k) <<< k := by
    rw [Nat.shiftRight_eq_div_pow, Nat.shiftLeft_eq]
    exact Nat.mul_comm _ _
  rw [h1, h2]
  simp only [Nat.testBit_and, Nat.testBit_shiftLeft, Nat.testBit_shiftRight,
    Nat.testBit_two_pow_sub_one, Nat.testBit_mod_two_pow]
  by_cases hki : k ≤ i
  · have hik : k + (i - k) = i := by omega
    rw [hik]
    by_cases hin : i < n
    · have h3 : i - k < n - k := by omega
      simp [hki, hin, h3, Bool.and_comm]
    · have h3 : ¬ (i - k < n - k) := by omega
      simp [hki, hin, h3]
  · simp [hki]

theorem getSize_word (w : Nat) : w &&& SIZE_BITMASK = 8 * (w % W / 8) := by
  have h : SIZE_BITMASK = 2 ^ 64 - 2 ^ 3 := by norm_num [SIZE_BITMASK, W]
  have h2 : W = 2 ^ 64 := rfl
  rw [h, h2, and_two_pow_sub w 64 3 (by norm_num)]
  norm_num

theorem getSize_succ (w : Nat) (h : w % 2 = 0) :
    (w + 1) &&& SIZE_BITMASK = w &&& SIZE_BITMASK := by
  rw [getSize_word, getSize_word]
  simp only [W]
  omega

theorem getSize_pred (w : Nat) (h : w % 2 = 1) :
    (w - 1) &&& SIZE_BITMASK = w &&& SIZE_BITMASK := by
  rw [getSize_word, getSize_word]
  simp only [W]
  omega

theorem getSize_aligned (w : Nat) (h8 : w % 8 = 0) (hlt : w < W) :
    w &&& SIZE_BITMASK = w := by
  rw [getSize_word]
  simp only [W] at hlt ⊢
  omega

theorem getSize_le (w : Nat) : w &&& SIZE_BITMASK ≤ w % W := by
  rw [getSize_word]
  simp only [W]
  omega

theorem getSize_mod_eight (w : Nat) : (w &&& SIZE_BITMASK) % 8 = 0 := by
  rw [getSize_word]
  omega

theorem and_one_succ (w : Nat) (h : w % 2 = 0) : (w + 1) &&& 1 = 1 := by
  rw [Nat.and_one_is_mod]; omega

theorem and_one_pred (w : Nat) (h : w % 2 = 1) : (w - 1) &&& 1 = 0 := by
  rw [Nat.and_one_is_mod]; omega

theorem and_one_even (w : Nat) (h : w % 2 = 0) : w &&& 1 = 0 := by
  rw [Nat.and_one_is_mod]; omega

theorem roundup_eq (s k : Nat) (hk : k ≤ 63) (hs : s + 2 ^ k - 1 < W) :
    Implicit.roundup s (2 ^ k) = 2 ^ k * ((s + 2 ^ k - 1) / 2 ^ k) := by
  have hW : (W : Nat) = 2 ^ 64 := rfl
  have hm1 : (1:Nat) ≤ 2 ^ k := Nat.one_le_two_pow
  have hmW : (2:Nat) ^ k < 2 ^ 64 := Nat.pow_lt_pow_right (by norm_num) (by omega)
  unfold Implicit.roundup wadd wsub wnot
  rw [hW] at hs ⊢
  have hL : ((s + 2 ^ k) % 2 ^ 64 + (2 ^ 64 - 1 % 2 ^ 64)) % 2 ^ 64 = s + 2 ^ k - 1 := by
    omega
  have hR : 2 ^ 64 - 1 - ((2 ^ k + (2 ^ 64 - 1 % 2 ^ 64)) % 2 ^ 64) % 2 ^ 64
      = 2 ^ 64 - 2 ^ k := by
    omega
  rw [hL, hR, and_two_pow_sub _ 64 k (by omega), Nat.mod_eq_of_lt hs]

theorem roundup_le_ge (s m : Nat) (hm : 1 ≤ m) :
    s ≤ m * ((s + m - 1) / m) ∧ m ∣ m * ((s + m - 1) / m) ∧
    ∀ t, m ∣ t → s ≤ t → m * ((s + m - 1) / m) ≤ t := by
  refine ⟨?_, Dvd.intro _ rfl, ?_⟩
  · have h1 := Nat.mod_lt (s + m - 1) (by omega : 0 < m)
    have h2 := Nat.div_mul_le_self (s + m - 1) m
    have h3 := Nat.div_add_mod (s + m - 1) m
    omega
  · intro t ht hst
    obtain ⟨q, rfl⟩ := ht
    have h1 : s + m - 1 ≤ m * q + (m - 1) := by omega
    have h2 : (s + m - 1) / m ≤ (m * q + (m - 1)) / m := Nat.div_le_div_right h1
    have h3 : (m * q + (m - 1)) / m = q := by
      rw [Nat.mul_add_div (by omega : 0 < m)]
      have : (m - 1) / m = 0 := Nat.div_eq_of_lt (by omega)
      omega
    have h4 : m * ((s + m - 1) / m) ≤ m * q := Nat.mul_le_mul_left m (by omega)
    exact h4

-- find? characterization: implicit
theorem findI_eq_find? (σ : Implicit.State) :
    ∀ fuel ptr N, Implicit.find_first_free σ fuel ptr N =
      (Implicit.blockWalk σ fuel ptr).find?
        (fun a => decide (N ≤ Implicit.get_size σ.mem a ∧ Implicit.is_malloc σ.mem a = false)) := by
  intro fuel
  induction fuel with
  | zero => intro ptr N; rfl
  | succ fuel ih =>
    intro ptr N
    rw [Implicit.find_first_free, Implicit.blockWalk]
    by_cases h : ptr < σ.segment_end
    · rw [if_pos h, if_pos h, List.find?_cons]
      by_cases hp : N ≤ Implicit.get_size σ.mem ptr ∧ Implicit.is_malloc σ.mem ptr = false
      · rw [if_pos hp, decide_eq_true hp]
      · rw [if_neg hp]
        have : decide (N ≤ Implicit.get_size σ.mem ptr ∧ Implicit.is_malloc σ.mem ptr = false) = false :=
          decide_eq_false hp
        rw [this]
        exact ih _ N
    · rw [if_neg h, if_neg h, List.find?_nil]

theorem findE_eq_find? (σ : Explicit.State) :
    ∀ fuel ptr N, Explicit.find_freeblock σ fuel ptr N =
      (Explicit.chainWalk σ fuel ptr).find?
        (fun a => decide (N ≤ Explicit.get_size σ.mem a)) := by
  intro fuel
  induction fuel with
  | zero => intro ptr N; rfl
  | succ fuel ih =>
    intro ptr N
    rw [Explicit.find_freeblock, Explicit.chainWalk]
    by_cases h : ptr ≠ 0
    · rw [if_pos h, if_pos h, List.find?_cons]
      by_cases hp : N ≤ Explicit.get_size σ.mem ptr
      · rw [if_pos hp, decide_eq_true hp]
      · rw [if_neg hp, decide_eq_false hp]
        exact ih _ N
    · rw [if_neg h, if_neg h, List.find?_nil]

/-- C1: the explicit allocator's own validate_heap returns false after a
sequence of valid public calls (init; three allocations that fill the
segment; two frees; two allocations; one free — every allocation succeeds
and every free passes a pointer previously returned).  The final free goes
through add_freeblock's empty-list branch, which fails to clear the stale
next word of the inserted block, so the free list reaches the allocated
block at header 8 and the validator rejects the heap.  This contradicts the
free-list soundness invariant and the validator fixed-point of the claim. -/
theorem C1_validate_heap_fails :
    (c1a.2 = some 16 ∧ c1b.2 = some 40 ∧ c1c.2 = some 64 ∧
     c1d.2 = some 40 ∧ c1e.2 = some 16) ∧
    Explicit.is_malloc c1final.mem 8 = true ∧
    c1final.first_free = 32 ∧ c1final.mem 48 = 8 ∧
    Explicit.validate_heap c1final = false := by decide

/-- C10: for every size s and power-of-two multiple 2^k that is a size_t
value (k ≤ 63), if s + 2^k - 1 does not wrap around a 64-bit machine word
then roundup (whose arithmetic is modulo 2^64) returns the smallest
multiple of 2^k that is greater than or equal to s; the two variants'
textually identical roundup functions agree. -/
theorem C10_roundup_least (s k : Nat) (hk : k ≤ 63) (hs : s + 2 ^ k - 1 < W) :
    s ≤ Implicit.roundup s (2 ^ k) ∧
    2 ^ k ∣ Implicit.roundup s (2 ^ k) ∧
    (∀ t, 2 ^ k ∣ t → s ≤ t → Implicit.roundup s (2 ^ k) ≤ t) ∧
    Implicit.roundup s (2 ^ k) = Explicit.roundup s (2 ^ k) := by
  have he : Implicit.roundup s (2 ^ k) = 2 ^ k * ((s + 2 ^ k - 1) / 2 ^ k) :=
    roundup_eq s k hk hs
  have h := roundup_le_ge s (2 ^ k) Nat.one_le_two_pow
  have hIE : Implicit.roundup s (2 ^ k) = Explicit.roundup s (2 ^ k) := rfl
  rw [he] at hIE ⊢
  exact ⟨h.1, h.2.1, h.2.2, hIE⟩

/-- Witness for C10 at s = 41, k = 3: the hypotheses are satisfiable and
roundup 41 8 is at least 41. -/
theorem C10_roundup_least_witness :
    41 ≤ Implicit.roundup 41 (2 ^ 3) ∧ Implicit.roundup 41 (2 ^ 3) = Explicit.roundup 41 (2 ^ 3) :=
  ⟨(C10_roundup_least 41 3 (by decide) (by decide)).1,
   (C10_roundup_least 41 3 (by decide) (by decide)).2.2.2⟩

theorem wr_self (m : Mem) (a v : Nat) : wr m a v a = v := by
  simp [wr]

theorem wr_other (m : Mem) (a v x : Nat) (h : x ≠ a) : wr m a v x = m x := by
  simp [wr, h]

theorem isMallocI_true (m : Mem) (a : Nat) :
    Implicit.is_malloc m a = true ↔ m a % 2 = 1 := by
  unfold Implicit.is_malloc MALLOC
  rw [Nat.and_one_is_mod]
  simp [bne_iff_ne]

theorem isMallocI_false (m : Mem) (a : Nat) :
    Implicit.is_malloc m a = false ↔ m a % 2 = 0 := by
  unfold Implicit.is_malloc MALLOC
  rw [Nat.and_one_is_mod]
  simp [bne_iff_ne]

theorem isMallocE_true (m : Mem) (a : Nat) :
    Explicit.is_malloc m a = true ↔ m a % 2 = 1 :=
  isMallocI_true m a

theorem isMallocE_false (m : Mem) (a : Nat) :
    Explicit.is_malloc m a = false ↔ m a % 2 = 0 :=
  isMallocI_false m a

theorem getSizeI_eq (m : Mem) (a : Nat) :
    Implicit.get_size m a = 8 * (m a % W / 8) := getSize_word (m a)

theorem getSizeE_eq (m : Mem) (a : Nat) :
    Explicit.get_size m a = 8 * (m a % W / 8) := getSize_word (m a)

/-- C7 counterexample: with the unaligned size 25 the implicit myinit
succeeds but the single header it writes is marked allocated, not free
(the stored word 25 - 8 = 17 has bit 0 set), against the claim that a
single free header with payload size size − HEADER_SIZE is written. -/
theorem C7_init_unaligned_size_not_free :
    (Implicit.myinit memZero 8 25).isSome = true ∧
    (Implicit.myinit memZero 8 25).map (fun σ => Implicit.is_malloc σ.mem 8) = some true ∧
    (Implicit.myinit memZero 8 25).map (fun σ => Implicit.get_size σ.mem 8) = some 16 := by
  decide

/-- C7 amended: init fails exactly when the size is below the variant
minimum, and for ALIGNMENT-aligned sizes (the alignment regime the spec
imposes on the segment) a successful init writes a single free header at
base with payload size size − HEADER_SIZE, leaves all other memory
untouched, and resets the counters; the explicit variant additionally
points first_free at the block and nulls its prev/next words. -/
theorem C7_init_behaviour (m : Mem) (base size : Nat) :
    (Implicit.myinit m base size = none ↔ size < HEADER_SIZE + ALIGNMENT) ∧
    (Explicit.myinit m base size = none ↔ size < HEADER_SIZE + ALIGNMENT * 2) ∧
    (HEADER_SIZE + ALIGNMENT ≤ size → size % ALIGNMENT = 0 → size < W →
      ∃ σ, Implicit.myinit m base size = some σ ∧
        σ.mem base = size - HEADER_SIZE ∧
        Implicit.is_malloc σ.mem base = false ∧
        Implicit.get_size σ.mem base = size - HEADER_SIZE ∧
        (∀ a, a ≠ base → σ.mem a = m a) ∧
        σ.segment_start = base ∧ σ.segment_end = base + size ∧
        σ.segment_size = size ∧ σ.nused = 0 ∧
        σ.num_usedblocks = 0 ∧ σ.num_freeblocks = 1) ∧
    (HEADER_SIZE + ALIGNMENT * 2 ≤ size → size % ALIGNMENT = 0 → size < W →
      ∃ σ, Explicit.myinit m base size = some σ ∧
        σ.mem base = size - HEADER_SIZE ∧
        Explicit.is_malloc σ.mem base = false ∧
        Explicit.get_size σ.mem base = size - HEADER_SIZE ∧
        σ.first_free = base ∧ σ.mem (base + 8) = 0 ∧ σ.mem (base + 16) = 0 ∧
        (∀ a, a ≠ base → a ≠ base + 8 → a ≠ base + 16 → σ.mem a = m a) ∧
        σ.segment_start = base ∧ σ.segment_end = base + size ∧
        σ.segment_size = size ∧ σ.nused = 0 ∧
        σ.num_usedblocks = 0 ∧ σ.num_freeblocks = 1) := by
  refine ⟨?_, ?_, ?_, ?_⟩
  · unfold Implicit.myinit
    by_cases h : size < HEADER_SIZE + ALIGNMENT
    · simp [h]
    · simp [h]
  · unfold Explicit.myinit
    by_cases h : size < HEADER_SIZE + ALIGNMENT * 2
    · simp [h]
    · simp [h]
  · intro h1 h2 h3
    simp only [HEADER_SIZE, ALIGNMENT] at h1 h2
    have hno : ¬ (size < HEADER_SIZE + ALIGNMENT) := by
      simp only [HEADER_SIZE, ALIGNMENT]
      omega
    have hmem : wr m base (size - HEADER_SIZE) base = size - HEADER_SIZE := wr_self _ _ _
    refine ⟨_, by rw [Implicit.myinit, if_neg hno], hmem, ?_, ?_, ?_, rfl, rfl, rfl, rfl, rfl, rfl⟩
    · show Implicit.is_malloc (wr m base (size - HEADER_SIZE)) base = false
      rw [isMallocI_false, hmem]
      simp only [HEADER_SIZE]
      omega
    · show Implicit.get_size (wr m base (size - HEADER_SIZE)) base = size - HEADER_SIZE
      unfold Implicit.get_size
      rw [hmem]
      apply getSize_aligned
      · simp only [HEADER_SIZE]
        omega
      · simp only [HEADER_SIZE]
        omega
    · intro a ha
      exact wr_other _ _ _ _ ha
  · intro h1 h2 h3
    simp only [HEADER_SIZE, ALIGNMENT] at h1 h2
    have hno : ¬ (size < HEADER_SIZE + ALIGNMENT * 2) := by
      simp only [HEADER_SIZE, ALIGNMENT]
      omega
    have hmem : wr (wr (wr m base (size - HEADER_SIZE)) (base + 8) 0) (base + 16) 0 base
        = size - HEADER_SIZE := by
      rw [wr_other _ _ _ _ (by omega : base ≠ base + 16),
          wr_other _ _ _ _ (by omega : base ≠ base + 8), wr_self]
    refine ⟨_, by rw [Explicit.myinit, if_neg hno], hmem, ?_, ?_, rfl, ?_, ?_, ?_, rfl, rfl, rfl, rfl, rfl, rfl⟩
    · show Explicit.is_malloc
        (wr (wr (wr m base (size - HEADER_SIZE)) (base + 8) 0) (base + 16) 0) base = false
      rw [isMallocE_false, hmem]
      simp only [HEADER_SIZE]
      omega
    · show Explicit.get_size
        (wr (wr (wr m base (size - HEADER_SIZE)) (base + 8) 0) (base + 16) 0) base
        = size - HEADER_SIZE
      unfold Explicit.get_size
      rw [hmem]
      apply getSize_aligned
      · simp only [HEADER_SIZE]
        omega
      · simp only [HEADER_SIZE]
        omega
    · show wr (wr (wr m base (size - HEADER_SIZE)) (base + 8) 0) (base + 16) 0 (base + 8) = 0
      rw [wr_other _ _ _ _ (by omega : base + 8 ≠ base + 16), wr_self]
    · exact wr_self _ _ _
    · intro a ha hb hc
      show wr (wr (wr m base (size - HEADER_SIZE)) (base + 8) 0) (base + 16) 0 a = m a
      rw [wr_other _ _ _ _ hc, wr_other _ _ _ _ hb, wr_other _ _ _ _ ha]

/-- Witness for C7 at base 8, size 64: the hypotheses of the success cases
are satisfiable and init indeed succeeds with a free header. -/
theorem C7_init_behaviour_witness :
    ∃ σ, Implicit.myinit memZero 8 64 = some σ ∧
      σ.mem 8 = 64 - HEADER_SIZE ∧
      Implicit.is_malloc σ.mem 8 = false ∧
      Implicit.get_size σ.mem 8 = 64 - HEADER_SIZE ∧
      (∀ a, a ≠ 8 → σ.mem a = memZero a) ∧
      σ.segment_start = 8 ∧ σ.segment_end = 8 + 64 ∧
      σ.segment_size = 64 ∧ σ.nused = 0 ∧
      σ.num_usedblocks = 0 ∧ σ.num_freeblocks = 1 :=
  (C7_init_behaviour memZero 8 64).2.2.1 (by decide) (by decide) (by decide)

theorem blockWalkI_congr (σ' σ : Implicit.State)
    (hend : σ'.segment_end = σ.segment_end)
    (hsz : ∀ a, Implicit.get_size σ'.mem a = Implicit.get_size σ.mem a) :
    ∀ fuel ptr, Implicit.blockWalk σ' fuel ptr = Implicit.blockWalk σ fuel ptr := by
  intro fuel
  induction fuel with
  | zero => intro ptr; rfl
  | succ fuel ih =>
    intro ptr
    rw [Implicit.blockWalk, Implicit.blockWalk, hend, hsz]
    by_cases h : ptr < σ.segment_end
    · rw [if_pos h, if_pos h, ih]
    · rw [if_neg h, if_neg h]

/-- C9: in the implicit variant, freeing a non-null pointer to an allocated
block modifies only that block's header word (clearing its allocation bit,
keeping its recorded payload size) and the three counters; every other
memory word is untouched, the segment bounds are unchanged, and the block
structure of the segment (the walk from any point) is identical, so no
blocks are merged. -/
theorem C9_free_touches_only_header (σ : Implicit.State) (p : Nat) (hp : p ≠ 0)
    (hm : Implicit.is_malloc σ.mem (Implicit.get_header p) = true) :
    (∀ a, a ≠ Implicit.get_header p → (Implicit.myfree σ p).mem a = σ.mem a) ∧
    (Implicit.myfree σ p).mem (Implicit.get_header p)
      = σ.mem (Implicit.get_header p) - MALLOC ∧
    Implicit.is_malloc (Implicit.myfree σ p).mem (Implicit.get_header p) = false ∧
    Implicit.get_size (Implicit.myfree σ p).mem (Implicit.get_header p)
      = Implicit.get_size σ.mem (Implicit.get_header p) ∧
    (∀ fuel ptr, Implicit.blockWalk (Implicit.myfree σ p) fuel ptr
      = Implicit.blockWalk σ fuel ptr) ∧
    (Implicit.myfree σ p).nused
      = σ.nused - (Implicit.get_size σ.mem (Implicit.get_header p) + HEADER_SIZE) ∧
    (Implicit.myfree σ p).num_usedblocks = σ.num_usedblocks - 1 ∧
    (Implicit.myfree σ p).num_freeblocks = σ.num_freeblocks + 1 ∧
    (Implicit.myfree σ p).segment_start = σ.segment_start ∧
    (Implicit.myfree σ p).segment_end = σ.segment_end ∧
    (Implicit.myfree σ p).segment_size = σ.segment_size := by
  have hodd : σ.mem (Implicit.get_header p) % 2 = 1 := (isMallocI_true _ _).mp hm
  have hszeq : Implicit.get_size
      (wr σ.mem (Implicit.get_header p) (σ.mem (Implicit.get_header p) - MALLOC))
      (Implicit.get_header p) = Implicit.get_size σ.mem (Implicit.get_header p) := by
    unfold Implicit.get_size
    rw [wr_self]
    exact getSize_pred _ hodd
  have hszall : ∀ a, Implicit.get_size
      (wr σ.mem (Implicit.get_header p) (σ.mem (Implicit.get_header p) - MALLOC)) a
      = Implicit.get_size σ.mem a := by
    intro a
    by_cases ha : a = Implicit.get_header p
    · subst ha
      exact hszeq
    · unfold Implicit.get_size
      rw [wr_other _ _ _ _ ha]
  rw [Implicit.myfree, if_neg hp]
  refine ⟨?_, ?_, ?_, ?_, ?_, ?_, rfl, rfl, rfl, rfl, rfl⟩
  · intro a ha
    exact wr_other _ _ _ _ ha
  · exact wr_self _ _ _
  · show Implicit.is_malloc
      (wr σ.mem (Implicit.get_header p) (σ.mem (Implicit.get_header p) - MALLOC))
      (Implicit.get_header p) = false
    rw [isMallocI_false, wr_self]
    simp only [MALLOC]
    omega
  · exact hszeq
  · intro fuel ptr
    apply blockWalkI_congr
    · rfl
    · exact hszall
  · show σ.nused - (Implicit.get_size
      (wr σ.mem (Implicit.get_header p) (σ.mem (Implicit.get_header p) - MALLOC))
      (Implicit.get_header p) + HEADER_SIZE)
      = σ.nused - (Implicit.get_size σ.mem (Implicit.get_header p) + HEADER_SIZE)
    rw [hszeq]

/-- Witness for C9: freeing payload 16 in the concrete heap clears the bit
of the header word at 8 and nothing else. -/
theorem C9_free_touches_only_header_witness :
    (Implicit.myfree c9s 16).mem 8 = c9s.mem 8 - MALLOC ∧
    Implicit.is_malloc (Implicit.myfree c9s 16).mem 8 = false ∧
    (Implicit.myfree c9s 16).nused
      = c9s.nused - (Implicit.get_size c9s.mem 8 + HEADER_SIZE) :=
  ⟨(C9_free_touches_only_header c9s 16 (by decide) (by decide)).2.1,
   (C9_free_touches_only_header c9s 16 (by decide) (by decide)).2.2.1,
   (C9_free_touches_only_header c9s 16 (by decide) (by decide)).2.2.2.2.2.1⟩

/-- C8: the placement search of both variants is first-fit in traversal
order: the implicit search returns the first free fitting block of the
segment walk from segment_start (hence the lowest-address fit, since the
walk ascends), the explicit search returns the first fitting node of the
next-link chain from first_free, and each reports failure exactly when no
block of its traversal fits. -/
theorem C8_first_fit_search (σI : Implicit.State) (σE : Explicit.State) (N : Nat) :
    (Implicit.find_first_free σI σI.segment_size σI.segment_start N =
      (Implicit.blockWalk σI σI.segment_size σI.segment_start).find?
        (fun a => decide (N ≤ Implicit.get_size σI.mem a ∧
                          Implicit.is_malloc σI.mem a = false))) ∧
    (Implicit.find_first_free σI σI.segment_size σI.segment_start N = none ↔
      ∀ a ∈ Implicit.blockWalk σI σI.segment_size σI.segment_start,
        ¬ (N ≤ Implicit.get_size σI.mem a ∧ Implicit.is_malloc σI.mem a = false)) ∧
    (Explicit.find_freeblock σE σE.segment_size σE.first_free N =
      (Explicit.chainWalk σE σE.segment_size σE.first_free).find?
        (fun a => decide (N ≤ Explicit.get_size σE.mem a))) ∧
    (Explicit.find_freeblock σE σE.segment_size σE.first_free N = none ↔
      ∀ a ∈ Explicit.chainWalk σE σE.segment_size σE.first_free,
        ¬ N ≤ Explicit.get_size σE.mem a) := by
  refine ⟨findI_eq_find? σI _ _ N, ?_, findE_eq_find? σE _ _ N, ?_⟩
  · rw [findI_eq_find? σI _ _ N, List.find?_eq_none]
    simp
  · rw [findE_eq_find? σE _ _ N, List.find?_eq_none]
    simp

theorem mymallocI_none_frame (σ : Implicit.State) (R : Nat) :
    (Implicit.mymalloc σ R).2 = none → (Implicit.mymalloc σ R).1 = σ := by
  unfold Implicit.mymalloc
  split
  · intro _
    rfl
  · split
    · intro _
      rfl
    · split
      · intro _
        rfl
      · intro h
        simp at h

theorem mymallocE_none_frame (σ : Explicit.State) (R : Nat) :
    (Explicit.mymalloc σ R).2 = none → (Explicit.mymalloc σ R).1 = σ := by
  unfold Explicit.mymalloc
  split
  · intro _
    rfl
  · split
    · intro _
      rfl
    · split
      · intro _
        rfl
      · intro h
        simp at h

theorem mymallocI_none_iff (σ : Implicit.State) (R : Nat) :
    (Implicit.mymalloc σ R).2 = none ↔
      R = 0 ∨ MAX_REQUEST_SIZE < R ∨
      σ.segment_size < Implicit.roundup R ALIGNMENT + σ.nused ∨
      ∀ a ∈ Implicit.blockWalk σ σ.segment_size σ.segment_start,
        ¬ (Implicit.roundup R ALIGNMENT ≤ Implicit.get_size σ.mem a ∧
           Implicit.is_malloc σ.mem a = false) := by
  have hfind := findI_eq_find? σ σ.segment_size σ.segment_start (Implicit.roundup R ALIGNMENT)
  unfold Implicit.mymalloc
  split
  next h0 =>
    constructor
    · intro _
      rcases h0 with h | h
      · exact Or.inr (Or.inl h)
      · exact Or.inl h
    · intro _
      rfl
  next h0 =>
    split
    next h1 =>
      constructor
      · intro _
        exact Or.inr (Or.inr (Or.inl h1))
      · intro _
        rfl
    next h1 =>
      split
      next heq =>
        constructor
        · intro _
          refine Or.inr (Or.inr (Or.inr ?_))
          rw [hfind, List.find?_eq_none] at heq
          intro a ha
          simpa using heq a ha
        · intro _
          rfl
      next ptr heq =>
        constructor
        · intro h
          simp at h
        · intro hrhs
          exfalso
          rcases hrhs with h | h | h | h
          · exact h0 (Or.inr h)
          · exact h0 (Or.inl h)
          · exact h1 h
          · have hnone : (Implicit.blockWalk σ σ.segment_size σ.segment_start).find?
                (fun a => decide (Implicit.roundup R ALIGNMENT ≤ Implicit.get_size σ.mem a ∧
                          Implicit.is_malloc σ.mem a = false)) = none := by
              rw [List.find?_eq_none]
              intro a ha
              simpa using h a ha
            rw [hfind, hnone] at heq
            exact Option.noConfusion heq

theorem mymallocE_none_iff (σ : Explicit.State) (R : Nat) :
    (Explicit.mymalloc σ R).2 = none ↔
      R = 0 ∨ MAX_REQUEST_SIZE < R ∨
      σ.segment_size < Explicit.normE R + σ.nused ∨
      ∀ a ∈ Explicit.chainWalk σ σ.segment_size σ.first_free,
        ¬ Explicit.normE R ≤ Explicit.get_size σ.mem a := by
  have hfind := findE_eq_find? σ σ.segment_size σ.first_free (Explicit.normE R)
  unfold Explicit.mymalloc
  split
  next h0 =>
    constructor
    · intro _
      rcases h0 with h | h
      · exact Or.inr (Or.inl h)
      · exact Or.inl h
    · intro _
      rfl
  next h0 =>
    split
    next h1 =>
      constructor
      · intro _
        exact Or.inr (Or.inr (Or.inl h1))
      · intro _
        rfl
    next h1 =>
      split
      next heq =>
        constructor
        · intro _
          refine Or.inr (Or.inr (Or.inr ?_))
          rw [hfind, List.find?_eq_none] at heq
          intro a ha
          simpa using heq a ha
        · intro _
          rfl
      next ptr heq =>
        constructor
        · intro h
          simp at h
        · intro hrhs
          exfalso
          rcases hrhs with h | h | h | h
          · exact h0 (Or.inr h)
          · exact h0 (Or.inl h)
          · exact h1 h
          · have hnone : (Explicit.chainWalk σ σ.segment_size σ.first_free).find?
                (fun a => decide (Explicit.normE R ≤ Explicit.get_size σ.mem a)) = none := by
              rw [List.find?_eq_none]
              intro a ha
              simpa using h a ha
            rw [hfind, hnone] at heq
            exact Option.noConfusion heq

/-- C6: allocation returns none exactly when the request is 0 or exceeds
MAX_REQUEST_SIZE, or the normalized size plus nused exceeds segment_size,
or no block of the placement traversal fits; and every failing allocation
leaves the state (segment memory, counters, free list head) unchanged. -/
theorem C6_allocate_failure_cases (σI : Implicit.State) (σE : Explicit.State) (R : Nat) :
    ((Implicit.mymalloc σI R).2 = none ↔
      R = 0 ∨ MAX_REQUEST_SIZE < R ∨
      σI.segment_size < Implicit.roundup R ALIGNMENT + σI.nused ∨
      ∀ a ∈ Implicit.blockWalk σI σI.segment_size σI.segment_start,
        ¬ (Implicit.roundup R ALIGNMENT ≤ Implicit.get_size σI.mem a ∧
           Implicit.is_malloc σI.mem a = false)) ∧
    ((Implicit.mymalloc σI R).2 = none → (Implicit.mymalloc σI R).1 = σI) ∧
    ((Explicit.mymalloc σE R).2 = none ↔
      R = 0 ∨ MAX_REQUEST_SIZE < R ∨
      σE.segment_size < Explicit.normE R + σE.nused ∨
      ∀ a ∈ Explicit.chainWalk σE σE.segment_size σE.first_free,
        ¬ Explicit.normE R ≤ Explicit.get_size σE.mem a) ∧
    ((Explicit.mymalloc σE R).2 = none → (Explicit.mymalloc σE R).1 = σE) :=
  ⟨mymallocI_none_iff σI R, mymallocI_none_frame σI R,
   mymallocE_none_iff σE R, mymallocE_none_frame σE R⟩

/-- Witness for C6: in a fresh 64-byte implicit heap at base 8 and a fresh
64-byte explicit heap at base 8, a request of 100 bytes fails (no fitting
block) and leaves both states unchanged. -/
theorem C6_allocate_failure_cases_witness :
    ((Implicit.mymalloc ((Implicit.myinit memZero 8 64).getD dfltI) 100).2 = none →
      (Implicit.mymalloc ((Implicit.myinit memZero 8 64).getD dfltI) 100).1
        = (Implicit.myinit memZero 8 64).getD dfltI) ∧
    ((Explicit.mymalloc ((Explicit.myinit memZero 8 64).getD dfltE) 100).2 = none →
      (Explicit.mymalloc ((Explicit.myinit memZero 8 64).getD dfltE) 100).1
        = (Explicit.myinit memZero 8 64).getD dfltE) :=
  ⟨(C6_allocate_failure_cases ((Implicit.myinit memZero 8 64).getD dfltI)
      ((Explicit.myinit memZero 8 64).getD dfltE) 100).2.1,
   (C6_allocate_failure_cases ((Implicit.myinit memZero 8 64).getD dfltI)
      ((Explicit.myinit memZero 8 64).getD dfltE) 100).2.2.2⟩

theorem findI_some (σ : Implicit.State) (fuel ptr N f : Nat)
    (h : Implicit.find_first_free σ fuel ptr N = some f) :
    N ≤ Implicit.get_size σ.mem f ∧ Implicit.is_malloc σ.mem f = false ∧
    f ∈ Implicit.blockWalk σ fuel ptr := by
  rw [findI_eq_find? σ fuel ptr N] at h
  have h1 := List.find?_some h
  have h2 := List.mem_of_find?_eq_some h
  simp at h1
  exact ⟨h1.1, h1.2, h2⟩

theorem findE_some (σ : Explicit.State) (fuel ptr N f : Nat)
    (h : Explicit.find_freeblock σ fuel ptr N = some f) :
    N ≤ Explicit.get_size σ.mem f ∧ f ∈ Explicit.chainWalk σ fuel ptr := by
  rw [findE_eq_find? σ fuel ptr N] at h
  have h1 := List.find?_some h
  have h2 := List.mem_of_find?_eq_some h
  simp at h1
  exact ⟨h1, h2⟩

theorem mymallocI_some_shape (σ : Implicit.State) (R p : Nat)
    (h : (Implicit.mymalloc σ R).2 = some p) :
    ∃ ptr, Implicit.find_first_free σ σ.segment_size σ.segment_start
        (Implicit.roundup R ALIGNMENT) = some ptr ∧
      p = ptr + HEADER_SIZE ∧
      (Implicit.mymalloc σ R).1 = Implicit.allocAt σ ptr (Implicit.roundup R ALIGNMENT) := by
  unfold Implicit.mymalloc at h ⊢
  by_cases h0 : MAX_REQUEST_SIZE < R ∨ R = 0
  · rw [if_pos h0] at h
    simp at h
  · rw [if_neg h0] at h ⊢
    by_cases h1 : σ.segment_size < Implicit.roundup R ALIGNMENT + σ.nused
    · rw [if_pos h1] at h
      simp at h
    · rw [if_neg h1] at h ⊢
      cases hfind : Implicit.find_first_free σ σ.segment_size σ.segment_start
          (Implicit.roundup R ALIGNMENT) with
      | none =>
        rw [hfind] at h
        simp at h
      | some ptr =>
        rw [hfind] at h
        refine ⟨ptr, rfl, ?_, rfl⟩
        have h' : some (ptr + HEADER_SIZE) = some p := h
        injection h' with h''
        exact h''.symm

theorem mymallocE_some_shape (σ : Explicit.State) (R p : Nat)
    (h : (Explicit.mymalloc σ R).2 = some p) :
    ∃ ptr, Explicit.find_freeblock σ σ.segment_size σ.first_free
        (Explicit.normE R) = some ptr ∧
      p = ptr + HEADER_SIZE ∧
      (Explicit.mymalloc σ R).1 = Explicit.allocAt σ ptr (Explicit.normE R) := by
  unfold Explicit.mymalloc at h ⊢
  by_cases h0 : MAX_REQUEST_SIZE < R ∨ R = 0
  · rw [if_pos h0] at h
    simp at h
  · rw [if_neg h0] at h ⊢
    by_cases h1 : σ.segment_size < Explicit.normE R + σ.nused
    · rw [if_pos h1] at h
      simp at h
    · rw [if_neg h1] at h ⊢
      cases hfind : Explicit.find_freeblock σ σ.segment_size σ.first_free
          (Explicit.normE R) with
      | none =>
        rw [hfind] at h
        simp at h
      | some ptr =>
        rw [hfind] at h
        refine ⟨ptr, rfl, ?_, rfl⟩
        have h' : some (ptr + HEADER_SIZE) = some p := h
        injection h' with h''
        exact h''.symm

theorem findE_first_ne_zero (σ : Explicit.State) (fuel N f : Nat)
    (h : Explicit.find_freeblock σ fuel σ.first_free N = some f) :
    σ.first_free ≠ 0 := by
  intro h0
  cases fuel with
  | zero =>
    rw [Explicit.find_freeblock] at h
    exact Option.noConfusion h
  | succ fuel =>
    rw [Explicit.find_freeblock, h0] at h
    simp at h

theorem unlinkHead_mem (σ : Explicit.State) (b : Nat) :
    (Explicit.unlinkHead σ b).mem = σ.mem := by
  unfold Explicit.unlinkHead
  split
  · rfl
  · rfl

theorem unlinkPrev_mem_ne (σ : Explicit.State) (b a : Nat)
    (hp : σ.mem (b + 8) = 0 ∨ σ.mem (b + 8) + 16 ≠ a) :
    (Explicit.unlinkPrev σ b).mem a = σ.mem a := by
  unfold Explicit.unlinkPrev
  split
  next h0 =>
    rcases hp with hp | hp
    · exact absurd hp h0
    · exact wr_other _ _ _ _ (fun hh => hp (hh ▸ rfl))
  next h0 => rfl

theorem unlinkPrev_mem_b16 (σ : Explicit.State) (b : Nat) :
    (Explicit.unlinkPrev σ b).mem (b + 16) = σ.mem (b + 16) := by
  unfold Explicit.unlinkPrev
  split
  · show (wr σ.mem (σ.mem (b + 8) + 16) (σ.mem (b + 16))) (b + 16) = σ.mem (b + 16)
    by_cases he : b + 16 = σ.mem (b + 8) + 16
    · rw [he, wr_self]
    · exact wr_other _ _ _ _ he
  · rfl

theorem unlinkNext_mem_ne (σ : Explicit.State) (b a : Nat)
    (hn : σ.mem (b + 16) = 0 ∨ σ.mem (b + 16) + 8 ≠ a) :
    (Explicit.unlinkNext σ b).mem a = σ.mem a := by
  unfold Explicit.unlinkNext
  split
  next h0 =>
    rcases hn with hn | hn
    · exact absurd hn h0
    · exact wr_other _ _ _ _ (fun hh => hn (hh ▸ rfl))
  next h0 => rfl

theorem remove_freeblock_mem_ne (σ : Explicit.State) (b a : Nat)
    (hp : σ.mem (b + 8) = 0 ∨ σ.mem (b + 8) + 16 ≠ a)
    (hn : σ.mem (b + 16) = 0 ∨ σ.mem (b + 16) + 8 ≠ a) :
    (Explicit.remove_freeblock σ b).mem a = σ.mem a := by
  unfold Explicit.remove_freeblock
  have h1 : (Explicit.unlinkHead σ b).mem = σ.mem := unlinkHead_mem σ b
  have hA : (Explicit.unlinkPrev (Explicit.unlinkHead σ b) b).mem (b + 16)
      = σ.mem (b + 16) := by
    rw [unlinkPrev_mem_b16, h1]
  have hB : (Explicit.unlinkNext (Explicit.unlinkPrev (Explicit.unlinkHead σ b) b) b).mem a
      = (Explicit.unlinkPrev (Explicit.unlinkHead σ b) b).mem a := by
    apply unlinkNext_mem_ne
    rw [hA]
    exact hn
  have hC : (Explicit.unlinkPrev (Explicit.unlinkHead σ b) b).mem a
      = (Explicit.unlinkHead σ b).mem a := by
    apply unlinkPrev_mem_ne
    rw [h1]
    exact hp
  rw [hB, hC, h1]

theorem roundup8_eq (s : Nat) (hs : s + 7 < W) :
    Implicit.roundup s 8 = 8 * ((s + 7) / 8) := by
  have h8 : (2:Nat) ^ 3 = 8 := by norm_num
  have h := roundup_eq s 3 (by norm_num) (by rw [h8]; omega)
  rw [h8] at h
  have h7 : s + 8 - 1 = s + 7 := by omega
  rw [h7] at h
  exact h

theorem normI_least (R : Nat) (h1 : 0 < R) (h2 : R ≤ MAX_REQUEST_SIZE) :
    ALIGNMENT ≤ Implicit.roundup R ALIGNMENT ∧ R ≤ Implicit.roundup R ALIGNMENT ∧
    ALIGNMENT ∣ Implicit.roundup R ALIGNMENT ∧
    (∀ t, ALIGNMENT ∣ t → ALIGNMENT ≤ t → R ≤ t → Implicit.roundup R ALIGNMENT ≤ t) ∧
    Implicit.roundup R ALIGNMENT % 8 = 0 ∧ Implicit.roundup R ALIGNMENT < W := by
  have hW : R + 7 < W := by
    simp only [MAX_REQUEST_SIZE] at h2
    simp only [W]
    omega
  have he : Implicit.roundup R ALIGNMENT = 8 * ((R + 7) / 8) := by
    simp only [ALIGNMENT]
    exact roundup8_eq R hW
  rw [he]
  simp only [ALIGNMENT]
  refine ⟨?_, ?_, ?_, ?_, ?_, ?_⟩
  · omega
  · omega
  · omega
  · intro t ht h8t hRt
    omega
  · omega
  · simp only [W] at hW ⊢
    omega

theorem normE_least (R : Nat) (h1 : 0 < R) (h2 : R ≤ MAX_REQUEST_SIZE) :
    2 * ALIGNMENT ≤ Explicit.normE R ∧ R ≤ Explicit.normE R ∧
    ALIGNMENT ∣ Explicit.normE R ∧
    (∀ t, ALIGNMENT ∣ t → 2 * ALIGNMENT ≤ t → R ≤ t → Explicit.normE R ≤ t) ∧
    Explicit.normE R % 8 = 0 ∧ Explicit.normE R < W := by
  have hW : R + 7 < W := by
    simp only [MAX_REQUEST_SIZE] at h2
    simp only [W]
    omega
  unfold Explicit.normE
  by_cases hc : 2 * ALIGNMENT < R
  · rw [if_pos hc]
    have he : Explicit.roundup R ALIGNMENT = 8 * ((R + 7) / 8) := by
      simp only [ALIGNMENT]
      exact roundup8_eq R hW
    rw [he]
    simp only [ALIGNMENT] at hc ⊢
    refine ⟨?_, ?_, ?_, ?_, ?_, ?_⟩
    · omega
    · omega
    · omega
    · intro t ht h16 hRt
      omega
    · omega
    · simp only [W] at hW ⊢
      omega
  · rw [if_neg hc]
    simp only [ALIGNMENT] at hc ⊢
    refine ⟨?_, ?_, ?_, ?_, ?_, ?_⟩
    · omega
    · omega
    · omega
    · intro t ht h16 hRt
      exact h16
    · trivial
    · unfold W
      norm_num

theorem markAllocI_get_size (σ : Implicit.State) (ptr : Nat)
    (heven : σ.mem ptr % 2 = 0) :
    Implicit.get_size (Implicit.markAlloc σ ptr).mem ptr
      = Implicit.get_size σ.mem ptr := by
  unfold Implicit.markAlloc Implicit.get_size
  show (wr σ.mem ptr (σ.mem ptr + MALLOC)) ptr &&& SIZE_BITMASK
    = σ.mem ptr &&& SIZE_BITMASK
  rw [wr_self]
  exact getSize_succ _ heven

theorem markAllocE_get_size (σ : Explicit.State) (ptr : Nat)
    (heven : σ.mem ptr % 2 = 0) :
    Explicit.get_size (Explicit.markAlloc σ ptr).mem ptr
      = Explicit.get_size σ.mem ptr := by
  unfold Explicit.markAlloc Explicit.get_size
  show (wr σ.mem ptr (σ.mem ptr + MALLOC)) ptr &&& SIZE_BITMASK
    = σ.mem ptr &&& SIZE_BITMASK
  rw [wr_self]
  exact getSize_succ _ heven

theorem split_blockI_mem_self (σ : Implicit.State) (ptr N : Nat)
    (hs : HEADER_SIZE + ALIGNMENT ≤ Implicit.get_size σ.mem ptr - N) :
    (Implicit.split_block σ ptr N).mem ptr = N := by
  unfold Implicit.split_block
  rw [if_pos hs]
  exact wr_self _ _ _

theorem split_blockI_no_split (σ : Implicit.State) (ptr N : Nat)
    (hs : ¬ HEADER_SIZE + ALIGNMENT ≤ Implicit.get_size σ.mem ptr - N) :
    Implicit.split_block σ ptr N = σ := by
  unfold Implicit.split_block
  rw [if_neg hs]

theorem allocAtI_get_size (σ : Implicit.State) (ptr N : Nat)
    (hfree : Implicit.is_malloc σ.mem ptr = false)
    (hN8 : N % 8 = 0) (hNW : N < W) :
    Implicit.get_size (Implicit.allocAt σ ptr N).mem ptr =
      if HEADER_SIZE + ALIGNMENT ≤ Implicit.get_size σ.mem ptr - N then N
      else Implicit.get_size σ.mem ptr := by
  have heven : σ.mem ptr % 2 = 0 := (isMallocI_false _ _).mp hfree
  have hbc : ∀ τ : Implicit.State, (Implicit.bumpCounters τ ptr).mem = τ.mem :=
    fun τ => rfl
  by_cases hs : HEADER_SIZE + ALIGNMENT ≤ Implicit.get_size σ.mem ptr - N
  · rw [if_pos hs]
    have h1 : (Implicit.split_block σ ptr N).mem ptr = N := split_blockI_mem_self σ ptr N hs
    have h2 : Implicit.get_size (Implicit.allocAt σ ptr N).mem ptr
        = Implicit.get_size (Implicit.markAlloc (Implicit.split_block σ ptr N) ptr).mem ptr := by
      unfold Implicit.allocAt
      rw [hbc]
    rw [h2, markAllocI_get_size _ _ (by rw [h1]; omega)]
    unfold Implicit.get_size
    rw [h1]
    exact getSize_aligned N hN8 hNW
  · rw [if_neg hs]
    have h1 : Implicit.split_block σ ptr N = σ := split_blockI_no_split σ ptr N hs
    have h2 : Implicit.get_size (Implicit.allocAt σ ptr N).mem ptr
        = Implicit.get_size (Implicit.markAlloc (Implicit.split_block σ ptr N) ptr).mem ptr := by
      unfold Implicit.allocAt
      rw [hbc]
    rw [h2, h1, markAllocI_get_size _ _ heven]

theorem add_freeblock_nonzero (σ : Explicit.State) (b : Nat)
    (h : σ.first_free ≠ 0) :
    Explicit.add_freeblock σ b = { σ with
      mem := (wr (wr (wr σ.mem (σ.first_free + 8) b) (b + 8) 0) (b + 16) σ.first_free)
      first_free := b } := by
  unfold Explicit.add_freeblock
  rw [if_neg h]

theorem splitHeaders_free (σ : Explicit.State) (f N : Nat)
    (hfree : σ.mem f % 2 = 0) :
    Explicit.splitHeaders σ f N = { σ with
      mem := (wr (wr σ.mem (f + (N + HEADER_SIZE))
        (Explicit.get_size σ.mem f - (N + HEADER_SIZE))) f N) } := by
  have hH8 : HEADER_SIZE = 8 := rfl
  unfold Explicit.splitHeaders
  have hmal : ¬ (Explicit.is_malloc (wr σ.mem (f + (N + HEADER_SIZE))
      (Explicit.get_size σ.mem f - (N + HEADER_SIZE))) f = true) := by
    rw [isMallocE_true]
    rw [wr_other _ _ _ _ (by omega : f ≠ f + (N + HEADER_SIZE))]
    omega
  rw [if_neg hmal]

theorem split_blockE_no_split (σ : Explicit.State) (f N : Nat)
    (hs : ¬ 2 * ALIGNMENT + HEADER_SIZE ≤ Explicit.get_size σ.mem f - N) :
    Explicit.split_block σ f N = σ := by
  unfold Explicit.split_block
  rw [if_neg hs]

theorem split_blockE_split_state (σ : Explicit.State) (f N : Nat)
    (hs : 2 * ALIGNMENT + HEADER_SIZE ≤ Explicit.get_size σ.mem f - N)
    (hfree : σ.mem f % 2 = 0) (hff0 : σ.first_free ≠ 0) :
    (Explicit.split_block σ f N).mem =
      wr (wr (wr (wr (wr σ.mem (f + (N + HEADER_SIZE))
          (Explicit.get_size σ.mem f - (N + HEADER_SIZE))) f N)
        (σ.first_free + 8) (f + (N + HEADER_SIZE)))
        (f + (N + HEADER_SIZE) + 8) 0)
        (f + (N + HEADER_SIZE) + 16) σ.first_free ∧
    (Explicit.split_block σ f N).first_free = f + (N + HEADER_SIZE) ∧
    (Explicit.split_block σ f N).num_freeblocks = σ.num_freeblocks + 1 ∧
    (Explicit.split_block σ f N).num_usedblocks = σ.num_usedblocks ∧
    (Explicit.split_block σ f N).nused = σ.nused := by
  unfold Explicit.split_block
  rw [if_pos hs, splitHeaders_free σ f N hfree]
  rw [add_freeblock_nonzero _ _ (by exact hff0)]
  exact ⟨rfl, rfl, rfl, rfl, rfl⟩

theorem allocAtE_get_size (σ : Explicit.State) (f N : Nat)
    (hfree : σ.mem f % 2 = 0)
    (hN8 : N % 8 = 0) (hN16 : 16 ≤ N) (hNW : N < W)
    (hp : σ.mem (f + 8) = 0 ∨ σ.mem (f + 8) + 16 ≠ f)
    (hn : σ.mem (f + 16) = 0 ∨ σ.mem (f + 16) + 8 ≠ f)
    (hff8 : σ.first_free + 8 ≠ f)
    (hffne8 : σ.first_free ≠ f + 8)
    (hff0 : σ.first_free ≠ 0) :
    Explicit.get_size (Explicit.allocAt σ f N).mem f =
      if 2 * ALIGNMENT + HEADER_SIZE ≤ Explicit.get_size σ.mem f - N then N
      else Explicit.get_size σ.mem f := by
  have hH8 : HEADER_SIZE = 8 := rfl
  have hbc : ∀ τ : Explicit.State, (Explicit.bumpCounters τ f).mem = τ.mem := fun τ => rfl
  have hred : ∀ τ : Explicit.State,
      Explicit.get_size (Explicit.allocAt τ f N).mem f
        = Explicit.get_size (Explicit.markAlloc
            (Explicit.remove_freeblock (Explicit.split_block τ f N) f) f).mem f := by
    intro τ
    unfold Explicit.allocAt
    rw [hbc]
  by_cases hs : 2 * ALIGNMENT + HEADER_SIZE ≤ Explicit.get_size σ.mem f - N
  · rw [if_pos hs, hred]
    obtain ⟨hmem, hff, -, -, -⟩ := split_blockE_split_state σ f N hs hfree hff0
    have hm_f : (Explicit.split_block σ f N).mem f = N := by
      rw [hmem]
      rw [wr_other _ _ _ _ (by omega : f ≠ f + (N + HEADER_SIZE) + 16)]
      rw [wr_other _ _ _ _ (by omega : f ≠ f + (N + HEADER_SIZE) + 8)]
      rw [wr_other _ _ _ _ (by omega : f ≠ σ.first_free + 8)]
      exact wr_self _ _ _
    have hm_f16 : (Explicit.split_block σ f N).mem (f + 16) = σ.mem (f + 16) := by
      rw [hmem]
      rw [wr_other _ _ _ _ (by omega : f + 16 ≠ f + (N + HEADER_SIZE) + 16)]
      rw [wr_other _ _ _ _ (by omega : f + 16 ≠ f + (N + HEADER_SIZE) + 8)]
      rw [wr_other _ _ _ _ (by omega : f + 16 ≠ σ.first_free + 8)]
      rw [wr_other _ _ _ _ (by omega : f + 16 ≠ f)]
      rw [wr_other _ _ _ _ (by omega : f + 16 ≠ f + (N + HEADER_SIZE))]
    have hpσ₁ : (Explicit.split_block σ f N).mem (f + 8) = 0 ∨
        (Explicit.split_block σ f N).mem (f + 8) + 16 ≠ f := by
      by_cases hq : σ.first_free = f
      · right
        have : (Explicit.split_block σ f N).mem (f + 8) = f + (N + HEADER_SIZE) := by
          rw [hmem]
          rw [wr_other _ _ _ _ (by omega : f + 8 ≠ f + (N + HEADER_SIZE) + 16)]
          rw [wr_other _ _ _ _ (by omega : f + 8 ≠ f + (N + HEADER_SIZE) + 8)]
          rw [hq, wr_self]
        rw [this]
        omega
      · have : (Explicit.split_block σ f N).mem (f + 8) = σ.mem (f + 8) := by
          rw [hmem]
          rw [wr_other _ _ _ _ (by omega : f + 8 ≠ f + (N + HEADER_SIZE) + 16)]
          rw [wr_other _ _ _ _ (by omega : f + 8 ≠ f + (N + HEADER_SIZE) + 8)]
          rw [wr_other _ _ _ _ (by omega : f + 8 ≠ σ.first_free + 8)]
          rw [wr_other _ _ _ _ (by omega : f + 8 ≠ f)]
          rw [wr_other _ _ _ _ (by omega : f + 8 ≠ f + (N + HEADER_SIZE))]
        rw [this]
        exact hp
    have hnσ₁ : (Explicit.split_block σ f N).mem (f + 16) = 0 ∨
        (Explicit.split_block σ f N).mem (f + 16) + 8 ≠ f := by
      rw [hm_f16]
      exact hn
    have hrm : (Explicit.remove_freeblock (Explicit.split_block σ f N) f).mem f
        = (Explicit.split_block σ f N).mem f :=
      remove_freeblock_mem_ne _ f f hpσ₁ hnσ₁
    have hfinal : Explicit.get_size (Explicit.markAlloc
        (Explicit.remove_freeblock (Explicit.split_block σ f N) f) f).mem f = N := by
      rw [markAllocE_get_size _ _ (by rw [hrm, hm_f]; omega)]
      unfold Explicit.get_size
      rw [hrm, hm_f]
      exact getSize_aligned N hN8 hNW
    exact hfinal
  · rw [if_neg hs, hred, split_blockE_no_split σ f N hs]
    have hrm : (Explicit.remove_freeblock σ f).mem f = σ.mem f :=
      remove_freeblock_mem_ne _ f f hp hn
    rw [markAllocE_get_size _ _ (by rw [hrm]; exact hfree)]
    unfold Explicit.get_size
    rw [hrm]

theorem get_headerI_cancel (ptr : Nat) : Implicit.get_header (ptr + HEADER_SIZE) = ptr := by
  unfold Implicit.get_header
  omega

theorem get_headerE_cancel (ptr : Nat) : Explicit.get_header (ptr + HEADER_SIZE) = ptr := by
  unfold Explicit.get_header
  omega

/-- C5 counterexample: on a fresh 24-byte implicit heap, allocate(8)
succeeds returning payload address 16, but the payload size recorded in
the block's header is 16, not the smallest multiple of ALIGNMENT that is
at least max(ALIGNMENT, 8) = 8: the chosen block's surplus (8 bytes) is
below the split threshold, so the block keeps its old size. -/
theorem C5_rounding_counterexample :
    (Implicit.mymalloc ((Implicit.myinit memZero 8 24).getD dfltI) 8).2 = some 16 ∧
    Implicit.get_size
      (Implicit.mymalloc ((Implicit.myinit memZero 8 24).getD dfltI) 8).1.mem
      (Implicit.get_header 16) = 16 ∧
    Implicit.roundup 8 ALIGNMENT = 8 ∧ ¬ (16 = 8) := by
  decide

/-- C5 amended: for a successful allocation of R bytes (0 < R ≤
MAX_REQUEST_SIZE), the payload size recorded in the returned block's
header is the normalized size N — the smallest multiple of ALIGNMENT at
least max(variant minimum, R), as the last two conjuncts state — or
exceeds N by less than the variant's split threshold (HEADER_SIZE +
ALIGNMENT for implicit, HEADER_SIZE + 2*ALIGNMENT for explicit), in which
case it is the chosen block's previous payload size.  The explicit
conjunct assumes the free list is sane (chainSane): nodes are marked
free, their links do not alias their own headers, and head and node do
not overlap. -/
theorem C5_allocate_rounding (σI : Implicit.State) (σE : Explicit.State)
    (R pI pE : Nat) (hR0 : 0 < R) (hRM : R ≤ MAX_REQUEST_SIZE)
    (hI : (Implicit.mymalloc σI R).2 = some pI)
    (hE : (Explicit.mymalloc σE R).2 = some pE)
    (hsane : chainSane σE) :
    (Implicit.get_size (Implicit.mymalloc σI R).1.mem (Implicit.get_header pI)
        = Implicit.roundup R ALIGNMENT ∨
      (Implicit.roundup R ALIGNMENT
          ≤ Implicit.get_size (Implicit.mymalloc σI R).1.mem (Implicit.get_header pI) ∧
        Implicit.get_size (Implicit.mymalloc σI R).1.mem (Implicit.get_header pI)
            - Implicit.roundup R ALIGNMENT < HEADER_SIZE + ALIGNMENT)) ∧
    (Explicit.get_size (Explicit.mymalloc σE R).1.mem (Explicit.get_header pE)
        = Explicit.normE R ∨
      (Explicit.normE R
          ≤ Explicit.get_size (Explicit.mymalloc σE R).1.mem (Explicit.get_header pE) ∧
        Explicit.get_size (Explicit.mymalloc σE R).1.mem (Explicit.get_header pE)
            - Explicit.normE R < HEADER_SIZE + 2 * ALIGNMENT)) ∧
    (ALIGNMENT ≤ Implicit.roundup R ALIGNMENT ∧ R ≤ Implicit.roundup R ALIGNMENT ∧
      ALIGNMENT ∣ Implicit.roundup R ALIGNMENT ∧
      ∀ t, ALIGNMENT ∣ t → ALIGNMENT ≤ t → R ≤ t → Implicit.roundup R ALIGNMENT ≤ t) ∧
    (2 * ALIGNMENT ≤ Explicit.normE R ∧ R ≤ Explicit.normE R ∧
      ALIGNMENT ∣ Explicit.normE R ∧
      ∀ t, ALIGNMENT ∣ t → 2 * ALIGNMENT ≤ t → R ≤ t → Explicit.normE R ≤ t) := by
  have hH8 : HEADER_SIZE = 8 := rfl
  have hA8 : ALIGNMENT = 8 := rfl
  obtain ⟨hI1, hI2, hI3, hI4, hI5, hI6⟩ := normI_least R hR0 hRM
  obtain ⟨hE1, hE2, hE3, hE4, hE5, hE6⟩ := normE_least R hR0 hRM
  refine ⟨?_, ?_, ⟨hI1, hI2, hI3, hI4⟩, ⟨hE1, hE2, hE3, hE4⟩⟩
  · obtain ⟨ptr, hfind, hpeq, hstate⟩ := mymallocI_some_shape σI R pI hI
    obtain ⟨hfit, hfreeb, hmemb⟩ := findI_some σI _ _ _ _ hfind
    rw [hstate, hpeq, get_headerI_cancel]
    rw [allocAtI_get_size σI ptr (Implicit.roundup R ALIGNMENT) hfreeb
      (by omega) (by exact hI6)]
    by_cases hsp : HEADER_SIZE + ALIGNMENT ≤
        Implicit.get_size σI.mem ptr - Implicit.roundup R ALIGNMENT
    · rw [if_pos hsp]
      exact Or.inl rfl
    · rw [if_neg hsp]
      exact Or.inr ⟨hfit, by omega⟩
  · obtain ⟨ptr, hfind, hpeq, hstate⟩ := mymallocE_some_shape σE R pE hE
    have hff0 : σE.first_free ≠ 0 := findE_first_ne_zero σE _ _ _ hfind
    obtain ⟨hfit, hmemb⟩ := findE_some σE _ _ _ _ hfind
    obtain ⟨hg1, hg2, hg3, hg4⟩ := hsane ptr hmemb
    have hff8 : σE.first_free + 8 ≠ ptr := by
      rcases hg4 with h | h | h
      · omega
      · omega
      · omega
    have hffne8 : σE.first_free ≠ ptr + 8 := by
      rcases hg4 with h | h | h
      · omega
      · omega
      · omega
    rw [hstate, hpeq, get_headerE_cancel]
    rw [allocAtE_get_size σE ptr (Explicit.normE R) hg1 (by omega)
      (by omega) (by exact hE6) hg2 hg3 hff8 hffne8 hff0]
    by_cases hsp : 2 * ALIGNMENT + HEADER_SIZE ≤
        Explicit.get_size σE.mem ptr - Explicit.normE R
    · rw [if_pos hsp]
      exact Or.inl rfl
    · rw [if_neg hsp]
      exact Or.inr ⟨hfit, by omega⟩

/-- Witness for C5: fresh 64-byte implicit and 72-byte explicit heaps at
base 8; allocate(16) succeeds in both with payload address 16 and the
recorded payload size is exactly the normalized 16. -/
theorem C5_allocate_rounding_witness :
    Implicit.get_size
        (Implicit.mymalloc ((Implicit.myinit memZero 8 64).getD dfltI) 16).1.mem
        (Implicit.get_header 16) = Implicit.roundup 16 ALIGNMENT ∨
      (Implicit.roundup 16 ALIGNMENT ≤ Implicit.get_size
          (Implicit.mymalloc ((Implicit.myinit memZero 8 64).getD dfltI) 16).1.mem
          (Implicit.get_header 16) ∧
        Implicit.get_size
            (Implicit.mymalloc ((Implicit.myinit memZero 8 64).getD dfltI) 16).1.mem
            (Implicit.get_header 16) - Implicit.roundup 16 ALIGNMENT
          < HEADER_SIZE + ALIGNMENT) :=
  (C5_allocate_rounding ((Implicit.myinit memZero 8 64).getD dfltI)
    ((Explicit.myinit memZero 8 72).getD dfltE) 16 16 16
    (by decide) (by decide) (by decide) (by decide) (by decide)).1

theorem splitHeaders_alloc (σ : Explicit.State) (f N : Nat)
    (hmal : σ.mem f % 2 = 1) :
    Explicit.splitHeaders σ f N = { σ with
      mem := (wr (wr σ.mem (f + (N + HEADER_SIZE))
        (Explicit.get_size σ.mem f - (N + HEADER_SIZE))) f (N + MALLOC)) } := by
  have hH8 : HEADER_SIZE = 8 := rfl
  unfold Explicit.splitHeaders
  have hm : Explicit.is_malloc (wr σ.mem (f + (N + HEADER_SIZE))
      (Explicit.get_size σ.mem f - (N + HEADER_SIZE))) f = true := by
    rw [isMallocE_true]
    rw [wr_other _ _ _ _ (by omega : f ≠ f + (N + HEADER_SIZE))]
    exact hmal
  rw [if_pos hm]

theorem split_blockE_alloc_mem_f (σ : Explicit.State) (f N : Nat)
    (hs : 2 * ALIGNMENT + HEADER_SIZE ≤ Explicit.get_size σ.mem f - N)
    (hmal : σ.mem f % 2 = 1)
    (hff : σ.first_free = 0 ∨ σ.first_free + 8 ≠ f) :
    (Explicit.split_block σ f N).mem f = N + MALLOC ∧
    (Explicit.split_block σ f N).num_freeblocks = σ.num_freeblocks + 1 ∧
    (Explicit.split_block σ f N).num_usedblocks = σ.num_usedblocks ∧
    (Explicit.split_block σ f N).nused = σ.nused := by
  have hH8 : HEADER_SIZE = 8 := rfl
  unfold Explicit.split_block
  rw [if_pos hs, splitHeaders_alloc σ f N hmal]
  by_cases hz : σ.first_free = 0
  · unfold Explicit.add_freeblock
    rw [if_pos (by exact hz)]
    refine ⟨?_, rfl, rfl, rfl⟩
    show (wr (wr σ.mem (f + (N + HEADER_SIZE))
      (Explicit.get_size σ.mem f - (N + HEADER_SIZE))) f (N + MALLOC)) f = N + MALLOC
    rw [wr_self]
  · have hff8 : σ.first_free + 8 ≠ f := by
      rcases hff with h | h
      · exact absurd h hz
      · exact h
    rw [add_freeblock_nonzero _ _ (by exact hz)]
    refine ⟨?_, rfl, rfl, rfl⟩
    show (wr (wr (wr (wr (wr σ.mem (f + (N + HEADER_SIZE))
        (Explicit.get_size σ.mem f - (N + HEADER_SIZE))) f (N + MALLOC))
        (σ.first_free + 8) (f + (N + HEADER_SIZE)))
        (f + (N + HEADER_SIZE) + 8) 0)
        (f + (N + HEADER_SIZE) + 16) σ.first_free) f = N + MALLOC
    rw [wr_other _ _ _ _ (by omega : f ≠ f + (N + HEADER_SIZE) + 16)]
    rw [wr_other _ _ _ _ (by omega : f ≠ f + (N + HEADER_SIZE) + 8)]
    rw [wr_other _ _ _ _ (by omega : f ≠ σ.first_free + 8)]
    rw [wr_self]

/-- C4 counterexample: in the implicit variant a shrinking reallocation is
not performed in place.  With one allocated block of payload 16 at header
8, reallocate(16, 8) has S = 16 > N = 8, yet it returns the fresh address
40, not the original address 16. -/
theorem C4_shrink_counterexample :
    (Implicit.mymalloc ((Implicit.myinit memZero 8 64).getD dfltI) 16).2 = some 16 ∧
    Implicit.get_size
      (Implicit.mymalloc ((Implicit.myinit memZero 8 64).getD dfltI) 16).1.mem 8 = 16 ∧
    Implicit.roundup 8 ALIGNMENT = 8 ∧
    (Implicit.myrealloc
      (Implicit.mymalloc ((Implicit.myinit memZero 8 64).getD dfltI) 16).1 16 8).2
      = some 40 ∧
    ¬ ((40 : Nat) = 16) := by
  decide

/-- C4 amended: shrink-in-place holds for the explicit variant only.  In
the explicit variant, when old points at an allocated block with current
payload S and the normalized size N of new_size satisfies N < S,
reallocate splits the block toward N (the payload becomes N when the
surplus meets the split threshold 2*ALIGNMENT + HEADER_SIZE, and stays S
otherwise), preserves the allocated bit, subtracts the payload decrease
from nused, leaves num_usedblocks unchanged, counts one more free block
exactly when a split occurred, and returns the original address.  In the
implicit variant the reallocation is out of place: whenever the inner
allocation succeeds, the returned address differs from old. -/
theorem C4_shrink_in_place (σE : Explicit.State) (old_ptr new_size : Nat)
    (σI : Implicit.State) (old_ptrI new_sizeI qI : Nat)
    (hop : old_ptr ≠ 0) (hns : 0 < new_size) (hnsM : new_size ≤ MAX_REQUEST_SIZE)
    (hmal : Explicit.is_malloc σE.mem (Explicit.get_header old_ptr) = true)
    (hS : Explicit.normE new_size < Explicit.get_size σE.mem (Explicit.get_header old_ptr))
    (hff : σE.first_free = 0 ∨ σE.first_free + 8 ≠ Explicit.get_header old_ptr)
    (hopI : old_ptrI ≠ 0) (hnsI : new_sizeI ≠ 0)
    (hmalI : Implicit.is_malloc σI.mem (Implicit.get_header old_ptrI) = true)
    (hsucI : (Implicit.mymalloc σI new_sizeI).2 = some qI) :
    ((Explicit.myrealloc σE old_ptr new_size).2 = some old_ptr ∧
     Explicit.is_malloc (Explicit.myrealloc σE old_ptr new_size).1.mem
       (Explicit.get_header old_ptr) = true ∧
     Explicit.get_size (Explicit.myrealloc σE old_ptr new_size).1.mem
       (Explicit.get_header old_ptr) =
       (if 2 * ALIGNMENT + HEADER_SIZE ≤
           Explicit.get_size σE.mem (Explicit.get_header old_ptr) - Explicit.normE new_size
        then Explicit.normE new_size
        else Explicit.get_size σE.mem (Explicit.get_header old_ptr)) ∧
     (Explicit.myrealloc σE old_ptr new_size).1.nused =
       σE.nused - (Explicit.get_size σE.mem (Explicit.get_header old_ptr) -
         Explicit.get_size (Explicit.myrealloc σE old_ptr new_size).1.mem
           (Explicit.get_header old_ptr)) ∧
     (Explicit.myrealloc σE old_ptr new_size).1.num_usedblocks = σE.num_usedblocks ∧
     (Explicit.myrealloc σE old_ptr new_size).1.num_freeblocks =
       σE.num_freeblocks + (if 2 * ALIGNMENT + HEADER_SIZE ≤
           Explicit.get_size σE.mem (Explicit.get_header old_ptr) - Explicit.normE new_size
         then 1 else 0)) ∧
    ((Implicit.myrealloc σI old_ptrI new_sizeI).2 = some qI ∧ qI ≠ old_ptrI) := by
  have hH8 : HEADER_SIZE = 8 := rfl
  have hA8 : ALIGNMENT = 8 := rfl
  have hM1 : MALLOC = 1 := rfl
  obtain ⟨hE1, hE2, hE3, hE4, hE5, hE6⟩ := normE_least new_size hns hnsM
  have hw : σE.mem (Explicit.get_header old_ptr) % 2 = 1 := (isMallocE_true _ _).mp hmal
  constructor
  · have hred : Explicit.myrealloc σE old_ptr new_size =
        (Explicit.shrinkAt σE (Explicit.get_header old_ptr) (Explicit.normE new_size),
         some old_ptr) := by
      unfold Explicit.myrealloc
      rw [if_neg hop, if_neg (by omega : ¬ new_size = 0), if_pos hS]
    rw [hred]
    by_cases hsp : 2 * ALIGNMENT + HEADER_SIZE ≤
        Explicit.get_size σE.mem (Explicit.get_header old_ptr) - Explicit.normE new_size
    · obtain ⟨hm1, hm2, hm3, hm4⟩ :=
        split_blockE_alloc_mem_f σE (Explicit.get_header old_ptr)
          (Explicit.normE new_size) hsp hw hff
      have hgs : Explicit.get_size
          (Explicit.split_block σE (Explicit.get_header old_ptr)
            (Explicit.normE new_size)).mem (Explicit.get_header old_ptr)
          = Explicit.normE new_size := by
        unfold Explicit.get_size
        rw [hm1]
        have h1 : (Explicit.normE new_size + MALLOC) &&& SIZE_BITMASK
            = Explicit.normE new_size &&& SIZE_BITMASK := getSize_succ _ (by omega)
        rw [h1]
        exact getSize_aligned _ hE5 hE6
      refine ⟨rfl, ?_, ?_, ?_, ?_, ?_⟩
      · show Explicit.is_malloc
          (Explicit.split_block σE (Explicit.get_header old_ptr)
            (Explicit.normE new_size)).mem (Explicit.get_header old_ptr) = true
        rw [isMallocE_true, hm1]
        omega
      · show Explicit.get_size
          (Explicit.split_block σE (Explicit.get_header old_ptr)
            (Explicit.normE new_size)).mem (Explicit.get_header old_ptr) = _
        rw [if_pos hsp, hgs]
      · show (Explicit.split_block σE (Explicit.get_header old_ptr)
            (Explicit.normE new_size)).nused -
          (Explicit.get_size σE.mem (Explicit.get_header old_ptr) -
            Explicit.get_size (Explicit.split_block σE (Explicit.get_header old_ptr)
              (Explicit.normE new_size)).mem (Explicit.get_header old_ptr))
          = σE.nused - (Explicit.get_size σE.mem (Explicit.get_header old_ptr) -
            Explicit.get_size (Explicit.split_block σE (Explicit.get_header old_ptr)
              (Explicit.normE new_size)).mem (Explicit.get_header old_ptr))
        rw [hm4]
      · show (Explicit.split_block σE (Explicit.get_header old_ptr)
            (Explicit.normE new_size)).num_usedblocks = σE.num_usedblocks
        exact hm3
      · show (Explicit.split_block σE (Explicit.get_header old_ptr)
            (Explicit.normE new_size)).num_freeblocks = σE.num_freeblocks + _
        rw [if_pos hsp, hm2]
    · have hnsplit : Explicit.split_block σE (Explicit.get_header old_ptr)
          (Explicit.normE new_size) = σE :=
        split_blockE_no_split σE _ _ hsp
      refine ⟨rfl, ?_, ?_, ?_, ?_, ?_⟩
      · show Explicit.is_malloc
          (Explicit.split_block σE (Explicit.get_header old_ptr)
            (Explicit.normE new_size)).mem (Explicit.get_header old_ptr) = true
        rw [hnsplit]
        exact hmal
      · show Explicit.get_size
          (Explicit.split_block σE (Explicit.get_header old_ptr)
            (Explicit.normE new_size)).mem (Explicit.get_header old_ptr) = _
        rw [if_neg hsp, hnsplit]
      · show (Explicit.split_block σE (Explicit.get_header old_ptr)
            (Explicit.normE new_size)).nused -
          (Explicit.get_size σE.mem (Explicit.get_header old_ptr) -
            Explicit.get_size (Explicit.split_block σE (Explicit.get_header old_ptr)
              (Explicit.normE new_size)).mem (Explicit.get_header old_ptr))
          = σE.nused - (Explicit.get_size σE.mem (Explicit.get_header old_ptr) -
            Explicit.get_size (Explicit.split_block σE (Explicit.get_header old_ptr)
              (Explicit.normE new_size)).mem (Explicit.get_header old_ptr))
        rw [hnsplit]
      · show (Explicit.split_block σE (Explicit.get_header old_ptr)
            (Explicit.normE new_size)).num_usedblocks = σE.num_usedblocks
        rw [hnsplit]
      · show (Explicit.split_block σE (Explicit.get_header old_ptr)
            (Explicit.normE new_size)).num_freeblocks = σE.num_freeblocks + _
        rw [if_neg hsp, hnsplit]
        omega
  · obtain ⟨ptr, hfind, hq, hstate⟩ := mymallocI_some_shape σI new_sizeI qI hsucI
    obtain ⟨-, hfreeb, -⟩ := findI_some σI _ _ _ _ hfind
    have hne : ptr ≠ Implicit.get_header old_ptrI := by
      intro he
      rw [he, hmalI] at hfreeb
      exact Bool.noConfusion hfreeb
    have hqne : qI ≠ old_ptrI := by
      rw [hq]
      intro he
      apply hne
      unfold Implicit.get_header
      omega
    refine ⟨?_, hqne⟩
    unfold Implicit.myrealloc
    rw [if_neg hopI, if_neg hnsI]
    have heta : Implicit.mymalloc σI new_sizeI
        = ((Implicit.mymalloc σI new_sizeI).1, some qI) := by
      rw [← hsucI]
    rw [heta]

/-- Witness for C4: a fresh explicit heap with a 40-byte allocated block
shrunk to 8 bytes in place at address 16, and a fresh implicit heap where
the same shrink moves the block to address 40. -/
theorem C4_shrink_in_place_witness :
    (Explicit.myrealloc
      (Explicit.mymalloc ((Explicit.myinit memZero 8 72).getD dfltE) 40).1 16 8).2
      = some 16 ∧
    ((Implicit.myrealloc
      (Implicit.mymalloc ((Implicit.myinit memZero 8 64).getD dfltI) 16).1 16 8).2
      = some 40 ∧ (40 : Nat) ≠ 16) :=
  ⟨(C4_shrink_in_place
      (Explicit.mymalloc ((Explicit.myinit memZero 8 72).getD dfltE) 40).1 16 8
      (Implicit.mymalloc ((Implicit.myinit memZero 8 64).getD dfltI) 16).1 16 8 40
      (by decide) (by decide) (by decide) (by decide) (by decide) (by decide)
      (by decide) (by decide) (by decide) (by decide)).1.1,
   (C4_shrink_in_place
      (Explicit.mymalloc ((Explicit.myinit memZero 8 72).getD dfltE) 40).1 16 8
      (Implicit.mymalloc ((Implicit.myinit memZero 8 64).getD dfltI) 16).1 16 8 40
      (by decide) (by decide) (by decide) (by decide) (by decide) (by decide)
      (by decide) (by decide) (by decide) (by decide)).2⟩

/-- C2 counterexample: reallocate(40, 41) on c2pre must grow; the in-place
coalescing phase absorbs the free right neighbour (the block's payload
grows from 16 to 40, num_freeblocks drops from 1 to 0, first_free becomes
null), the coalesced space is still short of the normalized 48 bytes, and
the fallback allocation fails, so reallocate returns none — yet the heap
has been mutated, against the claim that a failing reallocation leaves the
block and all counters unchanged. -/
theorem C2_grow_failure_counterexample :
    (Explicit.myrealloc c2pre 40 41).2 = none ∧
    c2pre.num_freeblocks = 1 ∧
    (Explicit.myrealloc c2pre 40 41).1.num_freeblocks = 0 ∧
    Explicit.get_size c2pre.mem 32 = 16 ∧
    Explicit.get_size (Explicit.myrealloc c2pre 40 41).1.mem 32 = 40 ∧
    c2pre.first_free = 56 ∧
    (Explicit.myrealloc c2pre 40 41).1.first_free = 0 := by
  decide

/-- C2 amended: a failing allocation mutates nothing, so a failing
reallocation of the implicit variant returns the state unchanged; in the
explicit variant a failing grow-reallocation returns exactly the state
left by the in-place right-coalescing phase (which may have enlarged the
block and consumed free-list nodes), and mutates nothing beyond it. -/
theorem C2_grow_failure_state (σI : Implicit.State) (old_ptrI new_sizeI : Nat)
    (σE : Explicit.State) (old_ptr new_size : Nat)
    (hopI : old_ptrI ≠ 0) (hnsI : new_sizeI ≠ 0)
    (hfailI : (Implicit.mymalloc σI new_sizeI).2 = none)
    (hop : old_ptr ≠ 0) (hns : new_size ≠ 0)
    (hlt : Explicit.get_size σE.mem (Explicit.get_header old_ptr) < Explicit.normE new_size)
    (hcl : (Explicit.coalesceLoop σE (Explicit.get_header old_ptr) σE.segment_size
        (Explicit.get_size σE.mem (Explicit.get_header old_ptr))).2 < Explicit.normE new_size)
    (hfailE : (Explicit.mymalloc (Explicit.coalesceLoop σE (Explicit.get_header old_ptr)
        σE.segment_size (Explicit.get_size σE.mem (Explicit.get_header old_ptr))).1
        new_size).2 = none) :
    Implicit.myrealloc σI old_ptrI new_sizeI = (σI, none) ∧
    Explicit.myrealloc σE old_ptr new_size =
      ((Explicit.coalesceLoop σE (Explicit.get_header old_ptr) σE.segment_size
        (Explicit.get_size σE.mem (Explicit.get_header old_ptr))).1, none) := by
  constructor
  · unfold Implicit.myrealloc
    rw [if_neg hopI, if_neg hnsI]
    have heta : Implicit.mymalloc σI new_sizeI
        = ((Implicit.mymalloc σI new_sizeI).1, none) := by
      rw [← hfailI]
    rw [heta, mymallocI_none_frame σI new_sizeI hfailI]
  · unfold Explicit.myrealloc
    rw [if_neg hop, if_neg hns,
        if_neg (by omega : ¬ Explicit.normE new_size
          < Explicit.get_size σE.mem (Explicit.get_header old_ptr)),
        if_neg (by omega : ¬ Explicit.get_size σE.mem (Explicit.get_header old_ptr)
          = Explicit.normE new_size),
        if_neg (by omega : ¬ Explicit.normE new_size
          ≤ (Explicit.coalesceLoop σE (Explicit.get_header old_ptr) σE.segment_size
            (Explicit.get_size σE.mem (Explicit.get_header old_ptr))).2)]
    have heta : Explicit.mymalloc (Explicit.coalesceLoop σE (Explicit.get_header old_ptr)
        σE.segment_size (Explicit.get_size σE.mem (Explicit.get_header old_ptr))).1 new_size
        = ((Explicit.mymalloc (Explicit.coalesceLoop σE (Explicit.get_header old_ptr)
            σE.segment_size (Explicit.get_size σE.mem
              (Explicit.get_header old_ptr))).1 new_size).1, none) := by
      rw [← hfailE]
    rw [heta, mymallocE_none_frame _ new_size hfailE]

/-- Witness for C2: the implicit half on a fresh 24-byte heap with an
oversized request, and the explicit half on the c2pre heap with the
failing grow of the counterexample. -/
theorem C2_grow_failure_state_witness :
    Implicit.myrealloc ((Implicit.myinit memZero 8 24).getD dfltI) 16 100
      = (((Implicit.myinit memZero 8 24).getD dfltI), none) ∧
    Explicit.myrealloc c2pre 40 41 =
      ((Explicit.coalesceLoop c2pre (Explicit.get_header 40) c2pre.segment_size
        (Explicit.get_size c2pre.mem (Explicit.get_header 40))).1, none) :=
  C2_grow_failure_state ((Implicit.myinit memZero 8 24).getD dfltI) 16 100
    c2pre 40 41 (by decide) (by decide) (by decide) (by decide) (by decide)
    (by decide) (by decide) (by decide)

/-- C3: code-bug witness.  In c3pre the block of g (header 32) is
allocated with payload 16 and stale null prev/next words; its immediate
right neighbour at 56 is free with payload 16, so the right neighbours
collectively provide 16 + 8 + 16 = 40 bytes, at least the normalized
target normE 24 = 24.  The claim (and spec section 4.7) says
reallocate(g, 24) grows in place and returns g = 40; but coalesce_block
returns early because the allocated block's stale prev/next words are
both null, so the code falls through to out-of-place allocation, which
finds no fitting block, and reallocate returns none. -/
theorem C3_inplace_grow_fails :
    (c3a.2 = some 16 ∧ c3b.2 = some 40 ∧ c3c.2 = some 64 ∧ c3d.2 = some 88 ∧
     c3e.2 = some 88 ∧ c3f.2 = some 112 ∧ c3g.2 = some 40) ∧
    Explicit.is_malloc c3pre.mem 32 = true ∧
    Explicit.get_size c3pre.mem 32 = 16 ∧
    c3pre.mem 40 = 0 ∧ c3pre.mem 48 = 0 ∧
    32 + HEADER_SIZE + Explicit.get_size c3pre.mem 32 = 56 ∧
    Explicit.is_malloc c3pre.mem 56 = false ∧
    Explicit.get_size c3pre.mem 56 = 16 ∧
    Explicit.normE 24 = 24 ∧
    Explicit.get_size c3pre.mem 32 + HEADER_SIZE + Explicit.get_size c3pre.mem 56 = 40 ∧
    (Explicit.myrealloc c3pre 40 24).2 = none ∧
    (Explicit.myrealloc c3pre 40 24).1.mem 32 = c3pre.mem 32 := by
  decide
